import Mathlib

/-!
Verification of the MCP React test-generator service: a shallow embedding of
the component analyzer, the test synthesizer, the verifier's runner-candidate
loop, the textual repair rules, and the orchestrator's generate-write-verify-
repair loop, together with theorems about them.

Strings are modelled by Lean `String`; the JavaScript string operations used
by the source (`includes`, `startsWith`, `split`, `trim`, `join`,
`replace(/['"]/g, '')`, `toLowerCase`, …) are given explicit executable
models on the underlying character lists.  Brace and apostrophe characters
inside string literals are written with `\x7b`, `\x7d` and `\x27` escapes.
-/

set_option maxRecDepth 65536

namespace JsStr

/-- The apostrophe character `'`. -/
def chQ : Char := Char.ofNat 39

/-- The double-quote character `"`. -/
def chD : Char := Char.ofNat 34

/-- `hasPrefixL pat l` is true when the character list `pat` is a prefix of `l`. -/
def hasPrefixL : List Char → List Char → Bool
  | [], _ => true
  | _ :: _, [] => false
  | p :: ps, c :: cs => p == c && hasPrefixL ps cs

/-- `hasInfixL pat l` is true when `pat` occurs contiguously inside `l`.
This models JavaScript `String.prototype.includes`. -/
def hasInfixL (pat : List Char) : List Char → Bool
  | [] => pat.isEmpty
  | c :: cs => hasPrefixL pat (c :: cs) || hasInfixL pat cs

/-- JS `s.includes(pat)`. -/
def jsIncludes (s pat : String) : Bool :=
  hasInfixL pat.data s.data

/-- JS `s.startsWith(pat)`. -/
def jsStartsWith (s pat : String) : Bool :=
  hasPrefixL pat.data s.data

/-- JS `s.endsWith(pat)`. -/
def jsEndsWith (s pat : String) : Bool :=
  hasPrefixL pat.data.reverse s.data.reverse

/-- JS `s.split(sep)` for a single-character separator (the only form the
source uses: `split('|')` and `split('/')`). -/
def splitCharL (sep : Char) : List Char → List (List Char)
  | [] => [[]]
  | c :: cs =>
    let r := splitCharL sep cs
    if c == sep then [] :: r
    else
      match r with
      | h :: t => (c :: h) :: t
      | [] => [[c]]

/-- JS `s.split(sep)` for a single-character separator, on `String`. -/
def jsSplitChar (s : String) (sep : Char) : List String :=
  (splitCharL sep s.data).map (fun l => ⟨l⟩)

/-- JS `s.trim()` (whitespace stripped from both ends). -/
def jsTrim (s : String) : String :=
  ⟨((s.data.dropWhile Char.isWhitespace).reverse.dropWhile Char.isWhitespace).reverse⟩

/-- JS `s.replace(/['"]/g, '')`: delete every apostrophe and double quote. -/
def stripQuoteChars (s : String) : String :=
  ⟨s.data.filter (fun c => !(c == chQ || c == chD))⟩

/-- JS `Array.prototype.join(sep)` over strings. -/
def joinSep (sep : String) : List String → String
  | [] => ""
  | [x] => x
  | x :: y :: t => x ++ sep ++ joinSep sep (y :: t)

/-- JS `s.toLowerCase()` (ASCII; component names in scope are ASCII). -/
def jsToLower (s : String) : String :=
  ⟨s.data.map Char.toLower⟩

/-- JS `str.charAt(0).toUpperCase() + str.slice(1)`. -/
def jsCapitalize (s : String) : String :=
  match s.data with
  | [] => ""
  | c :: cs => ⟨c.toUpper :: cs⟩

/-- Lookup in an association list modelling a JS record; absent keys give
`""` (which, like `undefined`, is falsy). -/
def lookupD (m : List (String × String)) (k : String) : String :=
  match m.find? (fun p => p.1 == k) with
  | some p => p.2
  | none => ""

/-- JS `a || b` on strings: `a` unless it is falsy (empty). -/
def jsOr (a b : String) : String :=
  if a == "" then b else a

end JsStr

open JsStr

/-- Mirrors `PropDefinition` of `component-analyzer.ts`. -/
structure PropDefinition where
  name : String
  type : String
  optional : Bool
  defaultValue : Option String
  description : Option String
deriving Repr, DecidableEq

/-- Mirrors `ImportInfo` of `component-analyzer.ts`. -/
structure ImportInfo where
  source : String
  imports : List String
  isDefault : Bool
deriving Repr, DecidableEq

/-- Mirrors `ComponentAnalysis` of `component-analyzer.ts`; `componentType`
is the literal string union `'functional' | 'class'`. -/
structure ComponentAnalysis where
  componentName : String
  componentType : String
  props : List PropDefinition
  exports : List String
  imports : List ImportInfo
  hasDefaultExport : Bool
  filePath : String
deriving Repr, DecidableEq

/-- Mirrors the private `TestCase` interface of the test generator. -/
structure TestCase where
  name : String
  description : String
  code : String
deriving Repr, DecidableEq

namespace TestGenerator

/-- Mirrors `TestGenerator.getImportPath`: strip the `.tsx/.ts/.jsx/.js`
extension from the file's base name (regex `\.(tsx?|jsx?)$`) and prefix `../`. -/
def stripScriptExt (s : String) : String :=
  if jsEndsWith s ".tsx" then ⟨s.data.take (s.data.length - 4)⟩
  else if jsEndsWith s ".ts" then ⟨s.data.take (s.data.length - 3)⟩
  else if jsEndsWith s ".jsx" then ⟨s.data.take (s.data.length - 4)⟩
  else if jsEndsWith s ".js" then ⟨s.data.take (s.data.length - 3)⟩
  else s

/-- Mirrors `TestGenerator.getImportPath`. -/
def getImportPath (filePath : String) : String :=
  let pathParts := jsSplitChar filePath '/'
  let fileName := pathParts.getLastD ""
  let fileNameWithoutExt := stripScriptExt fileName
  "../" ++ fileNameWithoutExt

/-- Mirrors `TestGenerator.getExpectedRole`: keyword lookup on the lowered
component name, defaulting to `button`. -/
def getExpectedRole (analysis : ComponentAnalysis) : String :=
  let componentName := jsToLower analysis.componentName
  if jsIncludes componentName "button" then "button"
  else if jsIncludes componentName "input" then "textbox"
  else if jsIncludes componentName "select" then "combobox"
  else if jsIncludes componentName "checkbox" then "checkbox"
  else if jsIncludes componentName "radio" then "radio"
  else if jsIncludes componentName "link" then "link"
  else "button"

/-- Mirrors `TestGenerator.getExpectedClassName`:
`name.replace(/([A-Z])/g, '-$1').toLowerCase()`. -/
def getExpectedClassName (name : String) : String :=
  jsToLower ⟨(name.data.map (fun c => if c.isUpper then ['-', c] else [c])).flatten⟩

/-- Mirrors `TestGenerator.capitalize`. -/
def capitalize (str : String) : String :=
  jsCapitalize str

/-- Mirrors `TestGenerator.getDefaultPropValue` (the `inline` default `true`
is passed explicitly at call sites). -/
def getDefaultPropValue (prop : PropDefinition) (inline : Bool) : String :=
  let pfx := if inline then prop.name ++ "=" else ""
  if prop.type == "string" then
    if prop.name == "label" then pfx ++ "\"Test Label\""
    else if prop.name == "text" then pfx ++ "\"Test Text\""
    else pfx ++ "\"test-" ++ prop.name ++ "\""
  else if prop.type == "boolean" then
    if inline then prop.name else "true"
  else if prop.type == "number" then
    pfx ++ "\x7b0\x7d"
  else if jsIncludes prop.type "() => void" then
    if inline then prop.name ++ "=\x7b() => \x7b\x7d\x7d" else "() => \x7b\x7d"
  else if jsIncludes prop.type "|" then
    let firstValue := stripQuoteChars (jsTrim ((jsSplitChar prop.type '|').headD ""))
    pfx ++ "\"" ++ firstValue ++ "\""
  else
    pfx ++ "\"test-" ++ prop.name ++ "\""

/-- Mirrors `TestGenerator.getRequiredPropsObject` (the `overrides` record is
an association list; the empty default is passed explicitly at call sites). -/
def getRequiredPropsObject (analysis : ComponentAnalysis)
    (overrides : List (String × String)) : String :=
  let requiredProps := analysis.props.filter (fun p => !p.optional)
  if requiredProps.isEmpty then "\x7b\x7d"
  else
    let props := requiredProps.map (fun prop =>
      let value := jsOr (lookupD overrides prop.name) (getDefaultPropValue prop false)
      if jsIncludes prop.type "() => void" then prop.name ++ ": () => \x7b\x7d"
      else if prop.type == "boolean" then prop.name ++ ": true"
      else if prop.type == "number" then prop.name ++ ": 0"
      else prop.name ++ ": " ++ value)
    "\x7b " ++ joinSep ", " props ++ " \x7d"

/-- Mirrors `TestGenerator.createBasicRenderTest`. -/
def createBasicRenderTest (analysis : ComponentAnalysis) : TestCase :=
  let requiredProps := joinSep " "
    ((analysis.props.filter (fun p => !p.optional)).map (fun prop =>
      if jsIncludes prop.type "() => void" then prop.name ++ "=\x7b() => \x7b\x7d\x7d"
      else getDefaultPropValue prop true))
  { name := "should render " ++ analysis.componentName ++ " component"
    description := "Test that the " ++ analysis.componentName ++
      " component renders without crashing"
    code := "\n    it(\"should render " ++ analysis.componentName ++
      " component\", () => \x7b\n        render(<" ++ analysis.componentName ++
      " " ++ requiredProps ++ " />);\n        \n        expect(screen.getByRole(\"" ++
      getExpectedRole analysis ++ "\")).toBeInTheDocument();\n    \x7d);" }

/-- The per-literal test case pushed by `TestGenerator.createPropTests` for
one trimmed, quote-stripped union alternative `value`. -/
def unionPropTest (prop : PropDefinition) (analysis : ComponentAnalysis)
    (value : String) : TestCase :=
  { name := "should handle " ++ prop.name ++ " as " ++ value
    description := "Test that the " ++ prop.name ++ " prop works with " ++
      value ++ " value"
    code := "\n    it(\"should handle " ++ prop.name ++ " as " ++ value ++
      "\", () => \x7b\n        const requiredProps = " ++
      getRequiredPropsObject analysis [] ++
      ";\n        \n        render(<" ++ analysis.componentName ++
      " \x7b...requiredProps\x7d " ++ prop.name ++ "=\"" ++ value ++
      "\" />);\n        \n        const element = screen.getByRole(\"" ++
      getExpectedRole analysis ++
      "\");\n        expect(element).toHaveClass(\"" ++
      getExpectedClassName (prop.name ++ "--" ++ value) ++ "\");\n    \x7d);" }

/-- Mirrors `TestGenerator.createPropTests`: a boolean toggle/class case, a
string display case, and one case per union literal alternative. -/
def createPropTests (prop : PropDefinition) (analysis : ComponentAnalysis) :
    List TestCase :=
  let booleanTests : List TestCase :=
    if prop.type == "boolean" then
      [{ name := "should handle " ++ prop.name ++ " prop"
         description := "Test that the " ++ prop.name ++ " boolean prop works correctly"
         code := "\n    it(\"should handle " ++ prop.name ++
           " prop\", () => \x7b\n        const requiredProps = " ++
           getRequiredPropsObject analysis [] ++
           ";\n        \n        render(<" ++ analysis.componentName ++
           " \x7b...requiredProps\x7d " ++ prop.name ++
           " />);\n        \n        const element = screen.getByRole(\"" ++
           getExpectedRole analysis ++
           "\");\n        expect(element).toHaveClass(\"" ++
           getExpectedClassName prop.name ++ "\");\n    \x7d);" }]
    else []
  let stringTests : List TestCase :=
    if prop.type == "string" then
      [{ name := "should display correct " ++ prop.name
         description := "Test that the " ++ prop.name ++ " string prop displays correctly"
         code := "\n    it(\"should display correct " ++ prop.name ++
           "\", () => \x7b\n        const test" ++ capitalize prop.name ++
           " = \"Test " ++ prop.name ++ "\";\n        const requiredProps = " ++
           getRequiredPropsObject analysis [] ++
           ";\n        \n        render(<" ++ analysis.componentName ++
           " \x7b...requiredProps\x7d " ++ prop.name ++ "=\x7btest" ++
           capitalize prop.name ++
           "\x7d />);\n        \n        expect(screen.getByText(test" ++
           capitalize prop.name ++ ")).toBeInTheDocument();\n    \x7d);" }]
    else []
  let unionTests : List TestCase :=
    if jsIncludes prop.type "|" then
      let values := (jsSplitChar prop.type '|').map (fun v => stripQuoteChars (jsTrim v))
      values.map (unionPropTest prop analysis)
    else []
  booleanTests ++ stringTests ++ unionTests

/-- Mirrors `TestGenerator.createEventTests`: cases are produced only for the
prop named `onClick`; a suppression case is added when a `disabled` prop exists. -/
def createEventTests (prop : PropDefinition) (analysis : ComponentAnalysis) :
    List TestCase :=
  if prop.name == "onClick" then
    let clickTest : TestCase :=
      { name := "should call onClick handler when clicked"
        description := "Test that the onClick handler is called when the component is clicked"
        code := "\n    it(\"should call onClick handler when clicked\", () => \x7b\n        const handleClick = jest.fn();\n        const requiredProps = " ++
          getRequiredPropsObject analysis [("onClick", "handleClick")] ++
          ";\n        \n        render(<" ++ analysis.componentName ++
          " \x7b...requiredProps\x7d onClick=\x7bhandleClick\x7d />);\n        \n        const element = screen.getByRole(\"" ++
          getExpectedRole analysis ++
          "\");\n        fireEvent.click(element);\n        \n        expect(handleClick).toHaveBeenCalledTimes(1);\n    \x7d);" }
    let hasDisabled := analysis.props.any (fun p => p.name == "disabled")
    let disabledTests : List TestCase :=
      if hasDisabled then
        [{ name := "should not call onClick when disabled"
           description := "Test that the onClick handler is not called when the component is disabled"
           code := "\n    it(\"should not call onClick when disabled\", () => \x7b\n        const handleClick = jest.fn();\n        const requiredProps = " ++
             getRequiredPropsObject analysis [("onClick", "handleClick")] ++
             ";\n        \n        render(<" ++ analysis.componentName ++
             " \x7b...requiredProps\x7d onClick=\x7bhandleClick\x7d disabled />);\n        \n        const element = screen.getByRole(\"" ++
             getExpectedRole analysis ++
             "\");\n        fireEvent.click(element);\n        \n        expect(handleClick).not.toHaveBeenCalled();\n    \x7d);" }]
      else []
    clickTest :: disabledTests
  else []

/-- Mirrors `TestGenerator.createConditionalRenderingTests`: a loading case
when a `loading` prop exists and an icon case when an `icon` prop exists. -/
def createConditionalRenderingTests (analysis : ComponentAnalysis) : List TestCase :=
  let loadingTests : List TestCase :=
    if analysis.props.any (fun p => p.name == "loading") then
      [{ name := "should show loading state"
         description := "Test that the loading state is displayed correctly"
         code := "\n    it(\"should show loading state\", () => \x7b\n        const requiredProps = " ++
           getRequiredPropsObject analysis [] ++
           ";\n        \n        render(<" ++ analysis.componentName ++
           " \x7b...requiredProps\x7d loading />);\n        \n        expect(screen.getByRole(\"status\", \x7b hidden: true \x7d)).toBeInTheDocument();\n    \x7d);" }]
    else []
  let iconTests : List TestCase :=
    if analysis.props.any (fun p => p.name == "icon") then
      [{ name := "should render with icon"
         description := "Test that the icon is rendered when provided"
         code := "\n    it(\"should render with icon\", () => \x7b\n        const requiredProps = " ++
           getRequiredPropsObject analysis [] ++
           ";\n        \n        render(<" ++ analysis.componentName ++
           " \x7b...requiredProps\x7d icon=\"test-icon\" />);\n        \n        const iconElement = screen.getByRole(\"img\", \x7b hidden: true \x7d) || screen.getByTestId(\"icon\");\n        expect(iconElement).toBeInTheDocument();\n    \x7d);" }]
    else []
  loadingTests ++ iconTests

/-- The unconditional keyboard-navigation accessibility case pushed first by
`TestGenerator.createAccessibilityTests`. -/
def keyboardAccessTest (analysis : ComponentAnalysis) : TestCase :=
  { name := "should be accessible via keyboard"
    description := "Test that the component supports keyboard navigation"
    code := "\n    it(\"should be accessible via keyboard\", () => \x7b\n        const requiredProps = " ++
      getRequiredPropsObject analysis [] ++
      ";\n        \n        render(<" ++ analysis.componentName ++
      " \x7b...requiredProps\x7d />);\n        \n        const element = screen.getByRole(\"" ++
      getExpectedRole analysis ++
      "\");\n        expect(element).not.toHaveAttribute(\"tabIndex\", \"-1\");\n    \x7d);" }

/-- Mirrors `TestGenerator.createAccessibilityTests`: an unconditional
keyboard-focusability case, plus an aria-disabled case when a `disabled`
prop exists. -/
def createAccessibilityTests (analysis : ComponentAnalysis) : List TestCase :=
  let keyboardTest : TestCase := keyboardAccessTest analysis
  let ariaTests : List TestCase :=
    if analysis.props.any (fun p => p.name == "disabled") then
      [{ name := "should have correct aria-disabled when disabled"
         description := "Test that aria-disabled is set correctly when disabled"
         code := "\n    it(\"should have correct aria-disabled when disabled\", () => \x7b\n        const requiredProps = " ++
           getRequiredPropsObject analysis [] ++
           ";\n        \n        render(<" ++ analysis.componentName ++
           " \x7b...requiredProps\x7d disabled />);\n        \n        const element = screen.getByRole(\"" ++
           getExpectedRole analysis ++
           "\");\n        expect(element).toBeDisabled();\n    \x7d);" }]
    else []
  keyboardTest :: ariaTests

/-- Mirrors `TestGenerator.generateImports`: the fixed four-line import
header with a named import of the component. -/
def generateImports (importPath : String) (componentName : String) : String :=
  "import React from \"react\";\nimport \x7b render, screen, fireEvent \x7d from \"@testing-library/react\";\nimport \"@testing-library/jest-dom\";\nimport \x7b " ++
    componentName ++ " \x7d from \"" ++ importPath ++ "\";"

/-- Mirrors `TestGenerator.buildTestFile` (the trailing `analysis` parameter
of the source is unused there as well). -/
def buildTestFile (componentName : String) (importPath : String)
    (testCases : List TestCase) (_analysis : ComponentAnalysis) : String :=
  let imports := generateImports importPath componentName
  let testSuite := joinSep "\n" (testCases.map (fun test => test.code))
  imports ++ "\n\n/**\n * Test suite for the " ++ componentName ++
    " component.\n */\ndescribe(\"" ++ componentName ++
    " Component\", () => \x7b" ++ testSuite ++ "\n\x7d);\n"

/-- Mirrors `TestGenerator.generateTestCases`: basic render case, per-prop
cases, event cases for props whose name starts with `on` or whose type
includes `() => void`, conditional-rendering cases, accessibility cases. -/
def generateTestCases (analysis : ComponentAnalysis) : List TestCase :=
  let basic := [createBasicRenderTest analysis]
  let propTests := (analysis.props.map (fun prop => createPropTests prop analysis)).flatten
  let eventProps := analysis.props.filter (fun prop =>
    jsStartsWith prop.name "on" || jsIncludes prop.type "() => void")
  let eventTests := (eventProps.map (fun prop => createEventTests prop analysis)).flatten
  basic ++ propTests ++ eventTests ++ createConditionalRenderingTests analysis ++
    createAccessibilityTests analysis

/-- Mirrors `TestGenerator.generate`. -/
def generate (analysis : ComponentAnalysis) (filePath : String) : String :=
  let componentName := analysis.componentName
  let importPath := getImportPath filePath
  let testCases := generateTestCases analysis
  buildTestFile componentName importPath testCases analysis

end TestGenerator

namespace ComponentAnalyzer

/-- A named property-signature member of an interface or type-literal body:
name text, optional type-annotation text, question-token flag, JSDoc comment.
Members that are not named property signatures are skipped by the analyzer's
`isPropertySignature(member) && member.name` guard and are not represented. -/
structure MemberSig where
  name : String
  typeText : Option String
  optional : Bool
  jsDoc : Option String
deriving Repr, DecidableEq

/-- The syntactic kind of a variable declaration's initializer. -/
inductive InitKind where
  | arrowFunction
  | functionExpression
  | otherInit
deriving Repr, DecidableEq

/-- Named bindings of an import clause. -/
inductive ImportBindings where
  | namedImports (elements : List String)
  | namespaceImport (name : String)
deriving Repr, DecidableEq

/-- An import clause: optional default-import name plus optional bindings. -/
structure ImportClause where
  defaultName : Option String
  bindings : Option ImportBindings
deriving Repr, DecidableEq

/-- Syntax-tree nodes of the analyzed component source, covering exactly the
node kinds the analyzer's `visit` dispatches on; every other kind is `other`.
`children` holds the syntactically nested nodes that `ts.forEachChild`
recurses into (for a variable declaration, the nodes nested inside the
initializer's body). A variable declaration whose `name` is a binding
pattern rather than an identifier is modelled with `name = none`. -/
inductive TsNode where
  | importDecl (source : String) (clause : Option ImportClause) (children : List TsNode)
  | interfaceDecl (name : String) (members : List MemberSig) (children : List TsNode)
  | typeAliasDecl (name : String) (typeLiteralMembers : Option (List MemberSig))
      (children : List TsNode)
  | funcDecl (name : Option String) (children : List TsNode)
  | varDecl (name : Option String) (init : Option InitKind) (children : List TsNode)
  | exportAssign (identName : Option String) (children : List TsNode)
  | other (children : List TsNode)
deriving Repr

/-- The regex test `/^[A-Z]/.test(name)`. -/
def isUpperFirst (s : String) : Bool :=
  match s.data with
  | [] => false
  | c :: _ => 'A' ≤ c && c ≤ 'Z'

/-- The `if (!analysis.exports.includes(x)) analysis.exports.push(x)` idiom. -/
def pushExportIfMissing (x : String) (exports : List String) : List String :=
  if exports.contains x then exports else exports ++ [x]

/-- Mirrors `ComponentAnalyzer.analyzeImport`. -/
def analyzeImport (source : String) (clause : Option ImportClause)
    (a : ComponentAnalysis) : ComponentAnalysis :=
  let info : ImportInfo :=
    match clause with
    | none => { source := source, imports := [], isDefault := false }
    | some c =>
      let (defImports, isDefault) :=
        match c.defaultName with
        | some n => ([n], true)
        | none => ([], false)
      let bindingImports :=
        match c.bindings with
        | some (.namedImports elements) => elements
        | some (.namespaceImport n) => [n]
        | none => []
      { source := source, imports := defImports ++ bindingImports, isDefault := isDefault }
  { a with imports := a.imports ++ [info] }

/-- The `PropDefinition` pushed for one property-signature member (type text
defaults to `any` when the annotation is absent). -/
def propOfMember (m : MemberSig) : PropDefinition :=
  { name := m.name, type := m.typeText.getD "any", optional := m.optional
    defaultValue := none, description := m.jsDoc }

/-- Mirrors `ComponentAnalyzer.analyzeInterface`: an interface whose name
ends with `Props` appends one prop per property-signature member. -/
def analyzeInterface (name : String) (members : List MemberSig)
    (a : ComponentAnalysis) : ComponentAnalysis :=
  if jsEndsWith name "Props" then
    { a with props := a.props ++ members.map propOfMember }
  else a

/-- Mirrors `ComponentAnalyzer.analyzeTypeAlias`: a type alias whose name
ends with `Props` and whose right-hand side is a type-literal node appends
one prop per property-signature member. -/
def analyzeTypeAlias (name : String) (typeLiteralMembers : Option (List MemberSig))
    (a : ComponentAnalysis) : ComponentAnalysis :=
  if jsEndsWith name "Props" then
    match typeLiteralMembers with
    | some members => { a with props := a.props ++ members.map propOfMember }
    | none => a
  else a

/-- Mirrors `ComponentAnalyzer.analyzeFunction` once the candidate name has
been resolved (the declaration's own name, or the enclosing variable
declaration's identifier for arrow/function expressions): an uppercase-first
name overwrites `componentName` and is pushed to `exports` if missing. -/
def analyzeFunctionNamed (functionName : String) (a : ComponentAnalysis) :
    ComponentAnalysis :=
  if functionName != "" && isUpperFirst functionName then
    { a with componentName := functionName, componentType := "functional"
             exports := pushExportIfMissing functionName a.exports }
  else a

/-- Mirrors `ComponentAnalyzer.analyzeVariableDeclaration`: an identifier
starting with an uppercase letter bound to an arrow function or function
expression overwrites `componentName` and is pushed to `exports`. -/
def analyzeVariableDeclaration (name : Option String) (init : Option InitKind)
    (a : ComponentAnalysis) : ComponentAnalysis :=
  match name with
  | none => a
  | some nm =>
    if isUpperFirst nm then
      match init with
      | some .arrowFunction | some .functionExpression =>
        { a with componentName := nm, componentType := "functional"
                 exports := pushExportIfMissing nm a.exports }
      | _ => a
    else a

/-- Mirrors `ComponentAnalyzer.analyzeExportAssignment`: a default export of
an identifier sets `hasDefaultExport` and pushes the identifier to `exports`. -/
def analyzeExportAssignment (identName : Option String) (a : ComponentAnalysis) :
    ComponentAnalysis :=
  match identName with
  | none => a
  | some nm =>
    { a with hasDefaultExport := true, exports := pushExportIfMissing nm a.exports }

mutual

/-- Mirrors `ComponentAnalyzer.visit`: dispatch on the node's kind, then
recurse into every child (`ts.forEachChild`), pre-order depth-first.  For a
variable declaration the child visit of a function-like initializer hits the
`ArrowFunction`/`FunctionExpression` case of `analyzeFunction`, which reads
the name back off the parent declaration. -/
def visit (n : TsNode) (a : ComponentAnalysis) : ComponentAnalysis :=
  match n with
  | .importDecl source clause children =>
    visitList children (analyzeImport source clause a)
  | .interfaceDecl name members children =>
    visitList children (analyzeInterface name members a)
  | .typeAliasDecl name typeLiteralMembers children =>
    visitList children (analyzeTypeAlias name typeLiteralMembers a)
  | .funcDecl name children =>
    visitList children (analyzeFunctionNamed (name.getD "") a)
  | .varDecl name init children =>
    let a := analyzeVariableDeclaration name init a
    let a :=
      match init with
      | some .arrowFunction | some .functionExpression =>
        analyzeFunctionNamed ((name.getD "")) a
      | _ => a
    visitList children a
  | .exportAssign identName children =>
    visitList children (analyzeExportAssignment identName a)
  | .other children =>
    visitList children a

/-- Fold `visit` over a list of sibling nodes, left to right. -/
def visitList (l : List TsNode) (a : ComponentAnalysis) : ComponentAnalysis :=
  match l with
  | [] => a
  | n :: rest => visitList rest (visit n a)

end

/-- Mirrors `ComponentAnalyzer.analyze`: a fresh empty model, then one
pre-order traversal of the parsed source file's top-level statements. -/
def analyze (nodes : List TsNode) (filePath : String) : ComponentAnalysis :=
  let a : ComponentAnalysis :=
    { componentName := "", componentType := "functional", props := []
      exports := [], imports := [], hasDefaultExport := false, filePath := filePath }
  visitList nodes a

end ComponentAnalyzer

namespace TestGeneratorServer

/-- Result shape of `TestGeneratorServer.runTests`. -/
structure RunResult where
  success : Bool
  errors : String
  output : String
deriving Repr, DecidableEq

/-- What happens to one spawned runner candidate: either the `error` event
fires (the command failed to start) or the `close` event fires with an exit
code and the accumulated stdout/stderr. -/
inductive CandidateOutcome where
  | errorEvent
  | close (code : Int) (stdout : String) (stderr : String)
deriving Repr, DecidableEq

/-- The ordered runner-candidate command lines of `runTests`. -/
def testCommands (testFilePath : String) : List (List String) :=
  [["npx", "jest", testFilePath, "--no-coverage", "--verbose"],
   ["npm", "test", "--", testFilePath],
   ["npx", "vitest", "run", testFilePath],
   ["yarn", "test", testFilePath]]

/-- The fixed diagnostic returned when every candidate fails to start. -/
def noRunnerMsg : String :=
  "No suitable test runner found. Please ensure Jest, Vitest, or npm test is available."

/-- Mirrors `tryNextCommand` inside `TestGeneratorServer.runTests`; the
environment's behaviour for the candidate at each index is abstracted as an
`outcome` oracle.  A candidate that closes with nonzero status and an output
containing `command not found` / `is not recognized` is skipped like one
that failed to start. -/
def tryNextCommand (testFilePath : String) (outcome : Nat → CandidateOutcome)
    (commandIndex : Nat) : RunResult :=
  if _h : commandIndex ≥ (testCommands testFilePath).length then
    { success := false, errors := noRunnerMsg, output := "" }
  else
    match outcome commandIndex with
    | .errorEvent => tryNextCommand testFilePath outcome (commandIndex + 1)
    | .close code stdout stderr =>
      let output := stdout ++ stderr
      if code = 0 then
        { success := true, errors := "", output := output }
      else if jsIncludes output "command not found" || jsIncludes output "is not recognized" then
        tryNextCommand testFilePath outcome (commandIndex + 1)
      else
        { success := false, errors := output, output := output }
termination_by (testCommands testFilePath).length - commandIndex
decreasing_by all_goals omega

/-- Mirrors `TestGeneratorServer.runTests`: start with the first candidate. -/
def runTests (testFilePath : String) (outcome : Nat → CandidateOutcome) : RunResult :=
  tryNextCommand testFilePath outcome 0

/-- Terminal states of the generate-write-verify-repair loop. -/
inductive Terminal where
  | PASSED
  | STALLED
  | EXHAUSTED
deriving Repr, DecidableEq

/-- State at loop exit: terminal state, final value of the iteration
counter, final test source, response text, and the sequence of test-file
writes performed inside the loop (one per loop-body execution). -/
structure LoopExit where
  terminal : Terminal
  iteration : Nat
  testCode : String
  finalResult : String
  writes : List String
deriving Repr

/-- The `maxIterations` constant of `TestGeneratorServer.generateTests`. -/
def maxIterations : Nat := 5

/-- Mirrors the `while (!allTestsPassed && iteration <= maxIterations)` loop
of `TestGeneratorServer.generateTests`.  `verify` abstracts one `runTests`
invocation (indexed by the iteration at which it happens); `fix` abstracts
`fixTestErrors` applied to the current code and diagnostics.  Each loop body
writes the current test source, verifies it, and on failure either stalls
(repair returned its input) or adopts the revised source and increments the
counter. -/
def generateTestsLoop (verify : Nat → String → RunResult) (fix : String → String → String)
    (iteration : Nat) (testCode : String) (writes : List String) : LoopExit :=
  if _h : iteration ≤ maxIterations then
    let writes := writes ++ [testCode]
    let testResult := verify iteration testCode
    if testResult.success then
      { terminal := .PASSED, iteration := iteration, testCode := testCode
        finalResult := "✅ All tests passed on iteration " ++ toString iteration ++
          "!\n\n" ++ testCode
        writes := writes }
    else
      let fixedCode := fix testCode testResult.errors
      if fixedCode = testCode then
        { terminal := .STALLED, iteration := iteration, testCode := testCode
          finalResult := "⚠️ Could not automatically fix test errors after " ++
            toString iteration ++ " iterations.\n\nLast errors:\n" ++
            testResult.errors ++ "\n\n" ++ testCode
          writes := writes }
      else
        generateTestsLoop verify fix (iteration + 1) fixedCode writes
  else
    { terminal := .EXHAUSTED, iteration := iteration, testCode := testCode
      finalResult := "⚠️ Maximum iterations (" ++ toString maxIterations ++
        ") reached. Some tests may still have issues.\n\n" ++ testCode
      writes := writes }
termination_by maxIterations + 1 - iteration
decreasing_by omega

/-- Mirrors `TestGeneratorServer.generateTests` from the first loop entry
(counter starts at 1) through the unconditional final write: returns the
loop-exit state together with the full sequence of test-file writes,
including the one performed after the loop. -/
def generateTests (verify : Nat → String → RunResult) (fix : String → String → String)
    (initialCode : String) : LoopExit × List String :=
  let exit := generateTestsLoop verify fix 1 initialCode []
  (exit, exit.writes ++ [exit.testCode])

end TestGeneratorServer

namespace JsStr

/-- The `{` character. -/
def chLB : Char := Char.ofNat 123

/-- The `}` character. -/
def chRB : Char := Char.ofNat 125

/-- A quote character (apostrophe or double quote), the class `['"]`. -/
def isQuote (c : Char) : Bool := c == chQ || c == chD

/-- Global regex-style replacement: at each position try `matchFn`; on a
match `(replacementText, remainderAfterMatch)` emit the replacement and
continue scanning after the match (JS `/g` semantics: replacements are not
rescanned); otherwise emit one character and move on.  Every matcher used
here consumes at least one character per match, so with `fuel` initialized
to the scanned list's length (as every caller does) the fuel never runs
out; the recursion is structural on `fuel` to keep the definition
kernel-reducible. -/
def gReplace (matchFn : List Char → Option (List Char × List Char)) :
    Nat → List Char → List Char
  | _, [] => []
  | 0, l => l
  | fuel + 1, c :: cs =>
    match matchFn (c :: cs) with
    | some (repl, rest) =>
      if rest.length ≤ cs.length then repl ++ gReplace matchFn fuel rest
      else repl ++ rest
    | none => c :: gReplace matchFn fuel cs

/-- Global regex-style extraction (JS `String.prototype.match` with `/g`):
collect each match's capture, continuing after the match's end.  Fueled
like `gReplace`. -/
def gScan {α : Type} (matchFn : List Char → Option (α × List Char)) :
    Nat → List Char → List α
  | _, [] => []
  | 0, _ => []
  | fuel + 1, c :: cs =>
    match matchFn (c :: cs) with
    | some (cap, rest) =>
      if rest.length ≤ cs.length then cap :: gScan matchFn fuel rest
      else [cap]
    | none => gScan matchFn fuel cs

/-- JS `s.replace(/pat/g, repl)` for a nonempty literal pattern. -/
def replaceAllLit (s pat repl : String) : String :=
  ⟨gReplace (fun l =>
    if !pat.data.isEmpty && hasPrefixL pat.data l then
      some (repl.data, l.drop pat.data.length)
    else none) s.data.length s.data⟩

/-- JS `s.replace(pat, repl)` with a string pattern: replace the first
occurrence only; an empty pattern matches at position 0 (JS
`"abc".replace("", r) === r + "abc"`). -/
def replaceFirstLitL (pat repl : List Char) : List Char → List Char
  | [] => if pat.isEmpty then repl else []
  | c :: cs =>
    if hasPrefixL pat (c :: cs) then repl ++ (c :: cs).drop pat.length
    else c :: replaceFirstLitL pat repl cs

/-- JS `s.replace(pat, repl)` with a string pattern, on `String`. -/
def replaceFirstLit (s pat repl : String) : String :=
  ⟨replaceFirstLitL pat.data repl.data s.data⟩

/-- First match of `/['"]([^'"]+)['"]/` (no flag): leftmost quote followed
by a nonempty quote-free run and a closing quote; returns the capture. -/
def firstQuoted : List Char → Option (List Char)
  | [] => none
  | c :: cs =>
    if isQuote c then
      let inner := cs.takeWhile (fun x => !isQuote x)
      match cs.drop inner.length with
      | d :: _ => if !inner.isEmpty && isQuote d then some inner else firstQuoted cs
      | [] => firstQuoted cs
    else firstQuoted cs

/-- The largest index below `n` satisfying `p` (used to model a greedy `.*`
ahead of a mandatory tail). -/
def lastIdxSuchThat (n : Nat) (p : Nat → Bool) : Option Nat :=
  ((List.range n).filter p).getLast?

end JsStr

namespace TestGeneratorServer

/-- Mirrors the private `TestGeneratorServer.getDefaultPropValue` (the
server-side default used when injecting a missing required prop). -/
def getDefaultPropValue (propName : String) : String :=
  if propName == "onClick" || propName == "onSubmit" || propName == "onChange" then
    "\x7b() => \x7b\x7d\x7d"
  else if propName == "children" then "\x7b\"Test Content\"\x7d"
  else if propName == "label" || propName == "title" || propName == "text" then
    "\"Test " ++ propName ++ "\""
  else if propName == "disabled" || propName == "loading" || propName == "visible" then ""
  else if jsStartsWith propName "on" then "\x7b() => \x7b\x7d\x7d"
  else "\"test-" ++ propName ++ "\""

/-- Matcher for `/="'([^']+)'"/g`: a doubly quoted attribute value
`="'…'"`; the inner run may not contain an apostrophe.  The replacement
`="$1"` strips the extraneous apostrophes. -/
def matchQuotedAttr (l : List Char) : Option (List Char × List Char) :=
  match l with
  | a :: b :: c :: rest =>
    if a == '=' && b == chD && c == chQ then
      let inner := rest.takeWhile (fun x => x != chQ)
      match rest.drop inner.length with
      | x :: y :: rest2 =>
        if !inner.isEmpty && x == chQ && y == chD then
          some ('=' :: chD :: (inner ++ [chD]), rest2)
        else none
      | _ => none
    else none
  | _ => none

/-- The quoted-literal strip rule: `fixedCode.replace(/="'([^']+)'"/g, '="$1"')`. -/
def fixQuotedAttrValues (fixedCode : String) : String :=
  ⟨gReplace matchQuotedAttr fixedCode.data.length fixedCode.data⟩

/-- The arrow-function syntax rule.  Each of the source's three regexes
contains an unescaped empty group `()`, so `/onClick={() => {}}/g` matches
the literal text `onClick={ => {}}` (and similarly for the other two); all
three replacements are the canonical closure literal. -/
def fixArrowSyntax (fixedCode : String) : String :=
  let c := replaceAllLit fixedCode "onClick=\x7b => \x7b\x7d\x7d" "onClick=\x7b() => \x7b\x7d\x7d"
  let c := replaceAllLit c "onClick=\x7b,  => \x7b\x7d\x7d" "onClick=\x7b() => \x7b\x7d\x7d"
  replaceAllLit c "onClick=\x7b => ,\x7d" "onClick=\x7b() => \x7b\x7d\x7d"

/-- Matcher for one match of `/Cannot find module.*['"]([^'"]+)['"]/g` over
the diagnostics: after the literal, the greedy dot (which cannot cross a
newline) pushes the mandatory quoted token as far right as possible; the
returned capture is then the first `['"]([^'"]+)['"]` group inside the
match text, as extracted by the source's inner `match`. -/
def matchCannotFindModule (l : List Char) : Option (String × List Char) :=
  let lit := "Cannot find module".data
  if hasPrefixL lit l then
    let tail := l.drop lit.length
    let validAt : Nat → Bool := fun i =>
      ((tail.take i).all (fun c => c != '\n')) &&
      (match tail.drop i with
       | c :: rest =>
         isQuote c &&
         (let inner := rest.takeWhile (fun x => !isQuote x)
          !inner.isEmpty &&
          (match rest.drop inner.length with
           | d :: _ => isQuote d
           | [] => false))
       | [] => false)
    match lastIdxSuchThat tail.length validAt with
    | some i =>
      match tail.drop i with
      | _ :: rest1 =>
        let inner := rest1.takeWhile (fun x => !isQuote x)
        let matchText := lit ++ tail.take (i + 1 + inner.length + 1)
        let rest := rest1.drop (inner.length + 1)
        some (⟨(firstQuoted matchText).getD []⟩, rest)
      | [] => none
    | none => none
  else none

/-- Matcher for the first match of `/import.*from ["']([^"']+)["']/` in the
test source: leftmost `import` whose line completes with a greedy-rightmost
`from ["']…["']`; returns the remainder after the match. -/
def matchImportStmt (l : List Char) : Option (List Char) :=
  let lit := "import".data
  if hasPrefixL lit l then
    let tail := l.drop lit.length
    let fromLit := "from ".data
    let validAt : Nat → Bool := fun i =>
      ((tail.take i).all (fun c => c != '\n')) &&
      hasPrefixL fromLit (tail.drop i) &&
      (match tail.drop (i + fromLit.length) with
       | c :: rest =>
         isQuote c &&
         (let inner := rest.takeWhile (fun x => !isQuote x)
          !inner.isEmpty &&
          (match rest.drop inner.length with
           | d :: _ => isQuote d
           | [] => false))
       | [] => false)
    match lastIdxSuchThat tail.length validAt with
    | some i =>
      let rest1 := tail.drop (i + fromLit.length + 1)
      let inner := rest1.takeWhile (fun x => !isQuote x)
      some (rest1.drop (inner.length + 1))
    | none => none
  else none

/-- Replace the first `import.*from ["']…["']` statement with `repl`
(JS `String.replace` with a non-global regex). -/
def replaceFirstImportL (repl : List Char) : List Char → List Char
  | [] => []
  | c :: cs =>
    match matchImportStmt (c :: cs) with
    | some rest => repl ++ rest
    | none => c :: replaceFirstImportL repl cs

/-- The unresolved-relative-import rule: for each `Cannot find module`
match whose quoted module name is relative, rewrite the first import
statement to a named import of the component from the analyzer-derived
path. -/
def fixModuleImports (fixedCode errors : String) (analysis : ComponentAnalysis)
    (filePath : String) : String :=
  let moduleNames := gScan matchCannotFindModule errors.data.length errors.data
  moduleNames.foldl (fun code moduleName =>
    if jsStartsWith moduleName "." then
      let correctImport := TestGenerator.getImportPath filePath
      let repl := "import \x7b " ++ analysis.componentName ++ " \x7d from \"" ++
        correctImport ++ "\""
      ⟨replaceFirstImportL repl.data code.data⟩
    else code) fixedCode

/-- Matcher for one match of
`/export '([^']+)' \(imported as '([^']+)'\) was not found/g`;
captures the exported and imported names. -/
def matchExportNotFound (l : List Char) : Option ((String × String) × List Char) :=
  let lit1 := "export \x27".data
  let lit2 := "\x27 (imported as \x27".data
  let lit3 := "\x27) was not found".data
  if hasPrefixL lit1 l then
    let t1 := l.drop lit1.length
    let run1 := t1.takeWhile (fun c => c != chQ)
    let t2 := t1.drop run1.length
    if !run1.isEmpty && hasPrefixL lit2 t2 then
      let t3 := t2.drop lit2.length
      let run2 := t3.takeWhile (fun c => c != chQ)
      let t4 := t3.drop run2.length
      if !run2.isEmpty && hasPrefixL lit3 t4 then
        some ((⟨run1⟩, ⟨run2⟩), t4.drop lit3.length)
      else none
    else none
  else none

/-- Matcher for the dynamic regex `import\s*{[^}]*NAME[^}]*}\s*from` built
by the named-import rule: an import whose brace group mentions `NAME`; the
replacement converts it to a default import. -/
def matchBraceImport (name repl : List Char) (l : List Char) :
    Option (List Char × List Char) :=
  let lit := "import".data
  if hasPrefixL lit l then
    let t1 := l.drop lit.length
    let ws1 := t1.takeWhile Char.isWhitespace
    let t2 := t1.drop ws1.length
    match t2 with
    | c :: t3 =>
      if c == chLB then
        let content := t3.takeWhile (fun x => x != chRB)
        if hasInfixL name content then
          match t3.drop content.length with
          | d :: t4 =>
            if d == chRB then
              let ws2 := t4.takeWhile Char.isWhitespace
              let t5 := t4.drop ws2.length
              if hasPrefixL "from".data t5 then some (repl, t5.drop 4)
              else none
            else none
          | [] => none
        else none
      else none
    | [] => none
  else none

/-- The named-import-not-found rule: for each
`export '…' (imported as '…') was not found` match, convert the braced
named import of that symbol to a default import. -/
def fixNamedImports (fixedCode errors : String) : String :=
  let pairs := gScan matchExportNotFound errors.data.length errors.data
  pairs.foldl (fun code pr =>
    let importName := pr.2
    let repl := "import " ++ importName ++ " from"
    ⟨gReplace (matchBraceImport importName.data repl.data) code.data.length code.data⟩) fixedCode

/-- Matcher for one match of
`/Unable to find an element with the role "([^"]+)"/g`; captures the role. -/
def matchRoleNotFound (l : List Char) : Option (String × List Char) :=
  let lit := "Unable to find an element with the role \"".data
  if hasPrefixL lit l then
    let t1 := l.drop lit.length
    let run := t1.takeWhile (fun c => c != chD)
    let t2 := t1.drop run.length
    match t2 with
    | d :: t3 => if !run.isEmpty && d == chD then some (⟨run⟩, t3) else none
    | [] => none
  else none

/-- The role-query rule: replace each failing `screen.getByRole("…")` call
with the fixed fallback `screen.getByTestId("button")`. -/
def fixRoleQueries (fixedCode errors : String) : String :=
  let roles := gScan matchRoleNotFound errors.data.length errors.data
  roles.foldl (fun code role =>
    replaceAllLit code ("screen.getByRole(\"" ++ role ++ "\")")
      "screen.getByTestId(\"button\")") fixedCode

/-- Matcher for one match of `/Property '([^']+)' is missing in type/g`;
captures the missing prop's name. -/
def matchMissingProp (l : List Char) : Option (String × List Char) :=
  let lit1 := "Property \x27".data
  let lit2 := "\x27 is missing in type".data
  if hasPrefixL lit1 l then
    let t1 := l.drop lit1.length
    let run := t1.takeWhile (fun c => c != chQ)
    let t2 := t1.drop run.length
    if !run.isEmpty && hasPrefixL lit2 t2 then some (⟨run⟩, t2.drop lit2.length)
    else none
  else none

/-- The index of the last whitespace character of `seg`, if any (the
position at which the greedy `[^>]+\s+` of the props-capture regex ends). -/
def lastWsIdx (seg : List Char) : Option Nat :=
  lastIdxSuchThat seg.length (fun i =>
    match seg.drop i with
    | c :: _ => c.isWhitespace
    | [] => false)

/-- Capture of `/render\(<[^>]+\s+([^>]*)\s*\/?>/` at the current position:
the greedy `[^>]+` (which may itself contain whitespace) extends to just
before the last whitespace character preceding the tag's closing `>`, so
the captured group is whatever follows that whitespace. -/
def matchRenderCaptureA (l : List Char) : Option (List Char) :=
  let lit := "render(<".data
  if hasPrefixL lit l then
    let after := l.drop lit.length
    let seg := after.takeWhile (fun c => c != '>')
    match after.drop seg.length with
    | _ :: _ =>
      match lastWsIdx seg with
      | some j => if j ≥ 1 then some (seg.drop (j + 1)) else none
      | none => none
    | [] => none
  else none

/-- Capture of `/render\(<[^>]+\s+([^>]*)\s*>[^<]*<\/[^>]+>/` at the
current position: as `matchRenderCaptureA`, but the tag must be followed by
text and a closing tag. -/
def matchRenderCaptureB (l : List Char) : Option (List Char) :=
  let lit := "render(<".data
  if hasPrefixL lit l then
    let after := l.drop lit.length
    let seg := after.takeWhile (fun c => c != '>')
    match after.drop seg.length with
    | _ :: t1 =>
      let mid := t1.takeWhile (fun c => c != '<')
      (match t1.drop mid.length with
       | a :: b :: t4 =>
         if a == '<' && b == '/' then
           let run := t4.takeWhile (fun c => c != '>')
           match t4.drop run.length with
           | e :: _ =>
             if e == '>' && !run.isEmpty then
               match lastWsIdx seg with
               | some j => if j ≥ 1 then some (seg.drop (j + 1)) else none
               | none => none
             else none
           | [] => none
         else none
       | _ => none)
    | [] => none
  else none

/-- Leftmost match of a position matcher over the test source
(JS `String.match` without `/g`: first match wins). -/
def findFirstCapture (matchFn : List Char → Option (List Char)) :
    List Char → Option (List Char)
  | [] => none
  | c :: cs =>
    match matchFn (c :: cs) with
    | some cap => some cap
    | none => findFirstCapture matchFn cs

/-- The missing-required-prop rule: for each `Property '…' is missing in
type` match, locate the props group of the first `render(<…>)` call
(self-closing regex first, then the open/close-tag regex) and, when the
captured group does not mention the prop, splice the prop with its default
into the first occurrence of that captured text. -/
def fixMissingProps (fixedCode errors : String) : String :=
  let propNames := gScan matchMissingProp errors.data.length errors.data
  propNames.foldl (fun code propName =>
    let propsMatch :=
      match findFirstCapture matchRenderCaptureA code.data with
      | some cap => some cap
      | none => findFirstCapture matchRenderCaptureB code.data
    match propsMatch with
    | some existingProps =>
      if !(hasInfixL propName.data existingProps) then
        let defaultValue := getDefaultPropValue propName
        let newProps :=
          if !existingProps.isEmpty then
            (⟨existingProps⟩ : String) ++ " " ++ propName ++ "=" ++ defaultValue
          else propName ++ "=" ++ defaultValue
        ⟨replaceFirstLitL existingProps newProps.data code.data⟩
      else code
    | none => code) fixedCode

/-- Matcher for `/expect\(element\)\.toHaveClass\("FAMILY([^"]+)"\);/g`
with `FAMILY` one of `size--` / `variant--`: rewrite to the `btn--` class. -/
def matchClassFamily (family : List Char) (l : List Char) :
    Option (List Char × List Char) :=
  let pre := "expect(element).toHaveClass(\"".data ++ family
  if hasPrefixL pre l then
    let t1 := l.drop pre.length
    let run := t1.takeWhile (fun c => c != chD)
    let post := [chD, ')', ';']
    let t2 := t1.drop run.length
    if !run.isEmpty && hasPrefixL post t2 then
      some ("expect(element).toHaveClass(\"btn--".data ++ run ++ post, t2.drop post.length)
    else none
  else none

/-- The class-assertion rule: replace the `disabled`/`loading` class
expectations with more specific assertions, and map `size--*` /
`variant--*` class names to `btn--*`. -/
def fixClassAssertions (fixedCode : String) : String :=
  let c := replaceAllLit fixedCode "expect(element).toHaveClass(\"disabled\");"
    "expect(element).toBeDisabled();"
  let c := replaceAllLit c "expect(element).toHaveClass(\"loading\");"
    "expect(element).toHaveAttribute(\"aria-disabled\", \"true\");"
  let c : String := ⟨gReplace (matchClassFamily "size--".data) c.data.length c.data⟩
  ⟨gReplace (matchClassFamily "variant--".data) c.data.length c.data⟩

/-- Matcher for `/screen\.getByText\(test([A-Z][a-z]+)\)/g`: rewrite the
text query to a test-id query on the lowercased name. -/
def matchGetByText (l : List Char) : Option (List Char × List Char) :=
  let lit := "screen.getByText(test".data
  if hasPrefixL lit l then
    let t1 := l.drop lit.length
    match t1 with
    | u :: t2 =>
      if 'A' ≤ u && u ≤ 'Z' then
        let lows := t2.takeWhile (fun c => 'a' ≤ c && c ≤ 'z')
        match t2.drop lows.length with
        | p :: t3 =>
          if p == ')' && !lows.isEmpty then
            some ("screen.getByTestId(\"".data ++ (u :: lows) ++
              "\".toLowerCase())".data, t3)
          else none
        | [] => none
      else none
    | [] => none
  else none

/-- The text-query rule. -/
def fixTextQueries (fixedCode : String) : String :=
  ⟨gReplace matchGetByText fixedCode.data.length fixedCode.data⟩

/-- The status-role rule. -/
def fixStatusQuery (fixedCode : String) : String :=
  replaceAllLit fixedCode "screen.getByRole(\"status\", \x7b hidden: true \x7d)"
    "screen.getByTestId(\"loading-spinner\")"

/-- The image-role rule. -/
def fixIconQuery (fixedCode : String) : String :=
  replaceAllLit fixedCode
    "screen.getByRole(\"img\", \x7b hidden: true \x7d) || screen.getByTestId(\"icon\")"
    "screen.getByTestId(\"icon\")"

end TestGeneratorServer

namespace TestGeneratorServer

/-- Trigger of the Jest-configuration early return. -/
def gateJestConfig (errors : String) : Bool :=
  jsIncludes errors "Unknown option \"moduleNameMapping\"" ||
    jsIncludes errors "jest-environment-jsdom cannot be found"

/-- Trigger of the JSX-configuration early return. -/
def gateJsxConfig (errors : String) : Bool :=
  jsIncludes errors "--jsx" && jsIncludes errors "is not set"

/-- Trigger of the quoted-literal strip rule. -/
def gateQuotedValue (errors : String) : Bool :=
  jsIncludes errors "is not assignable to type" && jsIncludes errors "Did you mean"

/-- Trigger of the arrow-function syntax rule. -/
def gateArrowSyntax (errors : String) : Bool :=
  jsIncludes errors "Identifier expected" &&
    jsIncludes errors "onClick=\x7b() => \x7b\x7d\x7d"

/-- Trigger of the unresolved-relative-import rule. -/
def gateCannotFindModule (errors : String) : Bool :=
  jsIncludes errors "Cannot find module"

/-- Trigger of the named-import-not-found rule. -/
def gateExportNotFound (errors : String) : Bool :=
  jsIncludes errors "was not found"

/-- Trigger of the role-query rule. -/
def gateRoleNotFound (errors : String) : Bool :=
  jsIncludes errors "Unable to find an element with the role"

/-- Trigger of the missing-required-prop rule. -/
def gateMissingProp (errors : String) : Bool :=
  jsIncludes errors "Property" && jsIncludes errors "is missing in type"

/-- Trigger of the class-assertion rule. -/
def gateHaveClass (errors : String) : Bool :=
  jsIncludes errors "toHaveClass" && jsIncludes errors "Expected"

/-- Trigger of the text-query rule. -/
def gateTextNotFound (errors : String) : Bool :=
  jsIncludes errors "Unable to find an element with the text"

/-- Trigger of the status-role rule. -/
def gateStatusNotFound (errors : String) : Bool :=
  jsIncludes errors "Unable to find an element with the role \"status\""

/-- Trigger of the image-role rule. -/
def gateImgNotFound (errors : String) : Bool :=
  jsIncludes errors "Unable to find an element with the role \"img\""

/-- Mirrors `TestGeneratorServer.fixTestErrors`: the two configuration
triggers return the test source unchanged; otherwise the rewrite rules are
applied in order, each gated by its diagnostic-pattern trigger. -/
def fixTestErrors (testCode errors : String) (analysis : ComponentAnalysis)
    (filePath : String) : String :=
  if gateJestConfig errors then testCode
  else if gateJsxConfig errors then testCode
  else
    let fixedCode := testCode
    let fixedCode := if gateQuotedValue errors then fixQuotedAttrValues fixedCode else fixedCode
    let fixedCode := if gateArrowSyntax errors then fixArrowSyntax fixedCode else fixedCode
    let fixedCode :=
      if gateCannotFindModule errors then fixModuleImports fixedCode errors analysis filePath
      else fixedCode
    let fixedCode :=
      if gateExportNotFound errors then fixNamedImports fixedCode errors else fixedCode
    let fixedCode :=
      if gateRoleNotFound errors then fixRoleQueries fixedCode errors else fixedCode
    let fixedCode :=
      if gateMissingProp errors then fixMissingProps fixedCode errors else fixedCode
    let fixedCode := if gateHaveClass errors then fixClassAssertions fixedCode else fixedCode
    let fixedCode := if gateTextNotFound errors then fixTextQueries fixedCode else fixedCode
    let fixedCode := if gateStatusNotFound errors then fixStatusQuery fixedCode else fixedCode
    let fixedCode := if gateImgNotFound errors then fixIconQuery fixedCode else fixedCode
    fixedCode

end TestGeneratorServer

namespace JsStr

theorem hasPrefixL_append_self (p t : List Char) : hasPrefixL p (p ++ t) = true := by
  induction p with
  | nil => rfl
  | cons c cs ih => simp [hasPrefixL, ih]

theorem hasPrefixL_refl (p : List Char) : hasPrefixL p p = true := by
  have h := hasPrefixL_append_self p []
  simpa using h

theorem hasInfixL_nil_pat (l : List Char) : hasInfixL [] l = true := by
  cases l <;> simp [hasInfixL, hasPrefixL]

theorem hasInfixL_of_hasPrefixL {p l : List Char} (h : hasPrefixL p l = true) :
    hasInfixL p l = true := by
  cases l with
  | nil =>
    cases p with
    | nil => rfl
    | cons c cs => simp [hasPrefixL] at h
  | cons c cs => simp [hasInfixL, h]

theorem hasPrefixL_append_of {p l : List Char} (t : List Char)
    (h : hasPrefixL p l = true) : hasPrefixL p (l ++ t) = true := by
  induction p generalizing l with
  | nil => rfl
  | cons a ps ih =>
    cases l with
    | nil => simp [hasPrefixL] at h
    | cons c cs =>
      simp [hasPrefixL] at h ⊢
      exact ⟨h.1, ih h.2⟩

theorem hasInfixL_append_left {p a : List Char} (b : List Char)
    (h : hasInfixL p a = true) : hasInfixL p (a ++ b) = true := by
  induction a with
  | nil =>
    simp [hasInfixL] at h
    simp [h, hasInfixL_nil_pat]
  | cons c cs ih =>
    simp only [hasInfixL, Bool.or_eq_true] at h
    rcases h with h | h
    · simp only [List.cons_append, hasInfixL, Bool.or_eq_true]
      exact Or.inl (hasPrefixL_append_of b h)
    · simp only [List.cons_append, hasInfixL, Bool.or_eq_true]
      exact Or.inr (ih h)

theorem hasInfixL_append_right {p b : List Char} (a : List Char)
    (h : hasInfixL p b = true) : hasInfixL p (a ++ b) = true := by
  induction a with
  | nil => simpa using h
  | cons c cs ih =>
    simp only [List.cons_append, hasInfixL, Bool.or_eq_true]
    exact Or.inr ih

theorem jsIncludes_refl (s : String) : jsIncludes s s = true :=
  hasInfixL_of_hasPrefixL (hasPrefixL_refl s.data)

theorem jsIncludes_append_left {s p : String} (t : String)
    (h : jsIncludes s p = true) : jsIncludes (s ++ t) p = true := by
  unfold jsIncludes at h ⊢
  rw [String.data_append]
  exact hasInfixL_append_left t.data h

theorem jsIncludes_append_right {t p : String} (s : String)
    (h : jsIncludes t p = true) : jsIncludes (s ++ t) p = true := by
  unfold jsIncludes at h ⊢
  rw [String.data_append]
  exact hasInfixL_append_right s.data h

theorem jsStartsWith_append_self (s t : String) : jsStartsWith (s ++ t) s = true := by
  unfold jsStartsWith
  rw [String.data_append]
  exact hasPrefixL_append_self s.data t.data

theorem joinSep_mem_includes (sep : String) :
    ∀ (l : List String) (x : String), x ∈ l → jsIncludes (joinSep sep l) x = true := by
  intro l
  induction l with
  | nil => intro x hx; cases hx
  | cons a t ih =>
    intro x hx
    cases t with
    | nil =>
      rcases List.mem_singleton.mp hx with rfl
      exact jsIncludes_refl x
    | cons b t' =>
      rcases List.mem_cons.mp hx with rfl | hmem
      · show jsIncludes (x ++ sep ++ joinSep sep (b :: t')) x = true
        exact jsIncludes_append_left _ (jsIncludes_append_left _ (jsIncludes_refl x))
      · show jsIncludes (a ++ sep ++ joinSep sep (b :: t')) x = true
        exact jsIncludes_append_right _ (ih x hmem)

end JsStr

namespace ComponentAnalyzer

mutual

/-- The pre-order sequence of qualifying component names recorded while
visiting one node: a function declaration's own uppercase-first name, or —
for an identifier bound to a function-like expression — the identifier once
for the variable-declaration visit and once for the initializer's child
visit. -/
def componentNames : TsNode → List String
  | .funcDecl name children =>
    (if (name.getD "") != "" && isUpperFirst (name.getD "") then [name.getD ""] else []) ++
      componentNamesList children
  | .varDecl name init children =>
    (match init with
     | some .arrowFunction | some .functionExpression =>
       (match name with
        | some nm =>
          (if isUpperFirst nm then [nm] else []) ++
            (if nm != "" && isUpperFirst nm then [nm] else [])
        | none => [])
     | _ => []) ++ componentNamesList children
  | .importDecl _ _ children => componentNamesList children
  | .interfaceDecl _ _ children => componentNamesList children
  | .typeAliasDecl _ _ children => componentNamesList children
  | .exportAssign _ children => componentNamesList children
  | .other children => componentNamesList children

/-- The pre-order sequence of qualifying component names of sibling nodes. -/
def componentNamesList : List TsNode → List String
  | [] => []
  | n :: rest => componentNames n ++ componentNamesList rest

end

mutual

/-- The props contributed by one node in pre-order: one `PropDefinition`
per property-signature member of a `Props`-suffixed interface or
type-literal alias, followed by the contributions of its children. -/
def propsOfNode : TsNode → List PropDefinition
  | .interfaceDecl name members children =>
    (if jsEndsWith name "Props" then members.map propOfMember else []) ++
      propsOfList children
  | .typeAliasDecl name typeLiteralMembers children =>
    (if jsEndsWith name "Props" then
      (match typeLiteralMembers with
       | some members => members.map propOfMember
       | none => [])
     else []) ++ propsOfList children
  | .importDecl _ _ children => propsOfList children
  | .funcDecl _ children => propsOfList children
  | .varDecl _ _ children => propsOfList children
  | .exportAssign _ children => propsOfList children
  | .other children => propsOfList children

/-- The props contributed by sibling nodes in pre-order. -/
def propsOfList : List TsNode → List PropDefinition
  | [] => []
  | n :: rest => propsOfNode n ++ propsOfList rest

end

theorem getLastD_append {α : Type} (xs ys : List α) (d : α) :
    (xs ++ ys).getLastD d = ys.getLastD (xs.getLastD d) := by
  simp only [List.getLastD_eq_getLast?, List.getLast?_append]
  cases ys.getLast? <;> simp [Option.or]

mutual

theorem visit_componentName (n : TsNode) (a : ComponentAnalysis) :
    (visit n a).componentName = (componentNames n).getLastD a.componentName := by
  cases n with
  | importDecl s c children =>
    rw [visit, visitList_componentName, componentNames]
    simp [analyzeImport]
  | interfaceDecl name members children =>
    rw [visit, visitList_componentName, componentNames]
    unfold analyzeInterface
    split <;> simp
  | typeAliasDecl name tl children =>
    rw [visit, visitList_componentName, componentNames]
    unfold analyzeTypeAlias
    split <;> (try split) <;> simp
  | funcDecl name children =>
    rw [visit, visitList_componentName, componentNames, getLastD_append]
    unfold analyzeFunctionNamed
    split <;> simp_all
  | varDecl name init children =>
    cases init with
    | none =>
      rw [visit, visitList_componentName, componentNames, getLastD_append] <;>
        try (intro h; cases h)
      cases name <;> simp [analyzeVariableDeclaration]
    | some k =>
      cases k with
      | arrowFunction =>
        cases name with
        | none =>
          rw [visit, visitList_componentName, componentNames, getLastD_append]
          simp [analyzeVariableDeclaration, analyzeFunctionNamed]
        | some nm =>
          rw [visit, visitList_componentName, componentNames, getLastD_append,
            getLastD_append]
          by_cases hu : isUpperFirst nm = true <;>
            by_cases hne : (nm != "") = true <;>
              simp [analyzeVariableDeclaration, analyzeFunctionNamed, hu, hne]
      | functionExpression =>
        cases name with
        | none =>
          rw [visit, visitList_componentName, componentNames, getLastD_append]
          simp [analyzeVariableDeclaration, analyzeFunctionNamed]
        | some nm =>
          rw [visit, visitList_componentName, componentNames, getLastD_append,
            getLastD_append]
          by_cases hu : isUpperFirst nm = true <;>
            by_cases hne : (nm != "") = true <;>
              simp [analyzeVariableDeclaration, analyzeFunctionNamed, hu, hne]
      | otherInit =>
        rw [visit, visitList_componentName, componentNames, getLastD_append] <;>
          try (intro h; cases h)
        cases name <;> simp [analyzeVariableDeclaration]
  | exportAssign e children =>
    rw [visit, visitList_componentName, componentNames]
    unfold analyzeExportAssignment
    cases e <;> simp
  | other children =>
    rw [visit, visitList_componentName, componentNames]

theorem visitList_componentName (l : List TsNode) (a : ComponentAnalysis) :
    (visitList l a).componentName = (componentNamesList l).getLastD a.componentName := by
  cases l with
  | nil => rw [visitList, componentNamesList]; rfl
  | cons n rest =>
    rw [visitList, visitList_componentName, visit_componentName, componentNamesList,
      getLastD_append]

end

theorem mem_pushExportIfMissing {x : String} (y : String) {l : List String}
    (h : x ∈ l) : x ∈ pushExportIfMissing y l := by
  unfold pushExportIfMissing
  split
  · exact h
  · exact List.mem_append_left _ h

theorem self_mem_pushExportIfMissing (y : String) (l : List String) :
    y ∈ pushExportIfMissing y l := by
  unfold pushExportIfMissing
  split
  · next h => exact List.mem_of_elem_eq_true h
  · exact List.mem_append_right _ (List.mem_singleton.mpr rfl)

theorem analyzeImport_exports (s : String) (c : Option ImportClause)
    (a : ComponentAnalysis) : (analyzeImport s c a).exports = a.exports := rfl

theorem analyzeInterface_exports (nm : String) (ms : List MemberSig)
    (a : ComponentAnalysis) : (analyzeInterface nm ms a).exports = a.exports := by
  unfold analyzeInterface; split <;> rfl

theorem analyzeTypeAlias_exports (nm : String) (tl : Option (List MemberSig))
    (a : ComponentAnalysis) : (analyzeTypeAlias nm tl a).exports = a.exports := by
  unfold analyzeTypeAlias
  split
  · split <;> rfl
  · rfl

theorem analyzeFunctionNamed_exports_mono (nm : String) (a : ComponentAnalysis)
    {x : String} (hx : x ∈ a.exports) : x ∈ (analyzeFunctionNamed nm a).exports := by
  unfold analyzeFunctionNamed
  split
  · exact mem_pushExportIfMissing _ hx
  · exact hx

theorem analyzeFunctionNamed_self_mem (nm : String) (a : ComponentAnalysis)
    (h : (nm != "" && isUpperFirst nm) = true) :
    nm ∈ (analyzeFunctionNamed nm a).exports := by
  unfold analyzeFunctionNamed
  rw [if_pos h]
  exact self_mem_pushExportIfMissing _ _

theorem analyzeVariableDeclaration_exports_mono (name : Option String)
    (init : Option InitKind) (a : ComponentAnalysis) {x : String}
    (hx : x ∈ a.exports) : x ∈ (analyzeVariableDeclaration name init a).exports := by
  cases name with
  | none => exact hx
  | some nm =>
    simp only [analyzeVariableDeclaration]
    split
    · split <;> first | exact mem_pushExportIfMissing _ hx | exact hx
    · exact hx

theorem analyzeVariableDeclaration_self_mem_arrow (nm : String) (a : ComponentAnalysis)
    (hu : isUpperFirst nm = true) :
    nm ∈ (analyzeVariableDeclaration (some nm) (some .arrowFunction) a).exports := by
  simp only [analyzeVariableDeclaration, hu, if_true]
  exact self_mem_pushExportIfMissing _ _

theorem analyzeVariableDeclaration_self_mem_fnexpr (nm : String) (a : ComponentAnalysis)
    (hu : isUpperFirst nm = true) :
    nm ∈ (analyzeVariableDeclaration (some nm) (some .functionExpression) a).exports := by
  simp only [analyzeVariableDeclaration, hu, if_true]
  exact self_mem_pushExportIfMissing _ _

theorem analyzeExportAssignment_exports_mono (e : Option String)
    (a : ComponentAnalysis) {x : String} (hx : x ∈ a.exports) :
    x ∈ (analyzeExportAssignment e a).exports := by
  cases e with
  | none => exact hx
  | some nm => exact mem_pushExportIfMissing _ hx

mutual

theorem visit_exports_mono (n : TsNode) (a : ComponentAnalysis) (x : String)
    (hx : x ∈ a.exports) : x ∈ (visit n a).exports := by
  cases n with
  | importDecl s c children =>
    simp only [visit]
    exact visitList_exports_mono children _ x (by rw [analyzeImport_exports]; exact hx)
  | interfaceDecl name members children =>
    simp only [visit]
    exact visitList_exports_mono children _ x (by rw [analyzeInterface_exports]; exact hx)
  | typeAliasDecl name tl children =>
    simp only [visit]
    exact visitList_exports_mono children _ x (by rw [analyzeTypeAlias_exports]; exact hx)
  | funcDecl name children =>
    simp only [visit]
    exact visitList_exports_mono children _ x (analyzeFunctionNamed_exports_mono _ _ hx)
  | varDecl name init children =>
    cases init with
    | none =>
      simp only [visit]
      exact visitList_exports_mono children _ x
        (analyzeVariableDeclaration_exports_mono _ _ _ hx)
    | some k =>
      cases k with
      | arrowFunction =>
        simp only [visit]
        exact visitList_exports_mono children _ x
          (analyzeFunctionNamed_exports_mono _ _
            (analyzeVariableDeclaration_exports_mono _ _ _ hx))
      | functionExpression =>
        simp only [visit]
        exact visitList_exports_mono children _ x
          (analyzeFunctionNamed_exports_mono _ _
            (analyzeVariableDeclaration_exports_mono _ _ _ hx))
      | otherInit =>
        simp only [visit]
        exact visitList_exports_mono children _ x
          (analyzeVariableDeclaration_exports_mono _ _ _ hx)
  | exportAssign e children =>
    simp only [visit]
    exact visitList_exports_mono children _ x (analyzeExportAssignment_exports_mono _ _ hx)
  | other children =>
    simp only [visit]
    exact visitList_exports_mono children _ x hx

theorem visitList_exports_mono (l : List TsNode) (a : ComponentAnalysis) (x : String)
    (hx : x ∈ a.exports) : x ∈ (visitList l a).exports := by
  cases l with
  | nil => simpa only [visitList] using hx
  | cons n rest =>
    simp only [visitList]
    exact visitList_exports_mono rest _ x (visit_exports_mono n a x hx)

end

mutual

theorem visit_exports_names (n : TsNode) (a : ComponentAnalysis) (x : String)
    (hx : x ∈ componentNames n) : x ∈ (visit n a).exports := by
  cases n with
  | importDecl s c children =>
    simp only [componentNames] at hx
    simp only [visit]
    exact visitList_exports_names children _ x hx
  | interfaceDecl name members children =>
    simp only [componentNames] at hx
    simp only [visit]
    exact visitList_exports_names children _ x hx
  | typeAliasDecl name tl children =>
    simp only [componentNames] at hx
    simp only [visit]
    exact visitList_exports_names children _ x hx
  | funcDecl name children =>
    simp only [componentNames] at hx
    simp only [visit]
    rcases List.mem_append.mp hx with hx | hx
    · split at hx
      · next hg =>
        rcases List.mem_singleton.mp hx with rfl
        exact visitList_exports_mono children _ _ (analyzeFunctionNamed_self_mem _ _ hg)
      · cases hx
    · exact visitList_exports_names children _ x hx
  | varDecl name init children =>
    cases init with
    | none =>
      simp only [componentNames, List.nil_append] at hx
      simp only [visit]
      exact visitList_exports_names children _ x hx
    | some k =>
      cases k with
      | arrowFunction =>
        cases name with
        | none =>
          simp only [componentNames, List.nil_append] at hx
          simp only [visit]
          exact visitList_exports_names children _ x hx
        | some nm =>
          simp only [componentNames] at hx
          simp only [visit]
          rcases List.mem_append.mp hx with hx | hx
          · rcases List.mem_append.mp hx with hx | hx
            · split at hx
              · next hu =>
                rcases List.mem_singleton.mp hx with rfl
                exact visitList_exports_mono children _ _
                  (analyzeFunctionNamed_exports_mono _ _
                    (analyzeVariableDeclaration_self_mem_arrow _ _ hu))
              · cases hx
            · split at hx
              · next hg =>
                rcases List.mem_singleton.mp hx with rfl
                exact visitList_exports_mono children _ _
                  (analyzeFunctionNamed_self_mem _ _ hg)
              · cases hx
          · exact visitList_exports_names children _ x hx
      | functionExpression =>
        cases name with
        | none =>
          simp only [componentNames, List.nil_append] at hx
          simp only [visit]
          exact visitList_exports_names children _ x hx
        | some nm =>
          simp only [componentNames] at hx
          simp only [visit]
          rcases List.mem_append.mp hx with hx | hx
          · rcases List.mem_append.mp hx with hx | hx
            · split at hx
              · next hu =>
                rcases List.mem_singleton.mp hx with rfl
                exact visitList_exports_mono children _ _
                  (analyzeFunctionNamed_exports_mono _ _
                    (analyzeVariableDeclaration_self_mem_fnexpr _ _ hu))
              · cases hx
            · split at hx
              · next hg =>
                rcases List.mem_singleton.mp hx with rfl
                exact visitList_exports_mono children _ _
                  (analyzeFunctionNamed_self_mem _ _ hg)
              · cases hx
          · exact visitList_exports_names children _ x hx
      | otherInit =>
        simp only [componentNames, List.nil_append] at hx
        simp only [visit]
        exact visitList_exports_names children _ x hx
  | exportAssign e children =>
    simp only [componentNames] at hx
    simp only [visit]
    exact visitList_exports_names children _ x hx
  | other children =>
    simp only [componentNames] at hx
    simp only [visit]
    exact visitList_exports_names children _ x hx

theorem visitList_exports_names (l : List TsNode) (a : ComponentAnalysis) (x : String)
    (hx : x ∈ componentNamesList l) : x ∈ (visitList l a).exports := by
  cases l with
  | nil => simp only [componentNamesList] at hx; cases hx
  | cons n rest =>
    simp only [componentNamesList] at hx
    simp only [visitList]
    rcases List.mem_append.mp hx with hx | hx
    · exact visitList_exports_mono rest _ x (visit_exports_names n a x hx)
    · exact visitList_exports_names rest _ x hx

end

theorem analyzeImport_props (s : String) (c : Option ImportClause)
    (a : ComponentAnalysis) : (analyzeImport s c a).props = a.props := rfl

theorem analyzeInterface_props (nm : String) (ms : List MemberSig)
    (a : ComponentAnalysis) : (analyzeInterface nm ms a).props =
      a.props ++ (if jsEndsWith nm "Props" then ms.map propOfMember else []) := by
  unfold analyzeInterface
  split <;> simp

theorem analyzeTypeAlias_props (nm : String) (tl : Option (List MemberSig))
    (a : ComponentAnalysis) : (analyzeTypeAlias nm tl a).props =
      a.props ++ (if jsEndsWith nm "Props" then
        (match tl with
         | some members => members.map propOfMember
         | none => [])
       else []) := by
  unfold analyzeTypeAlias
  split
  · cases tl <;> simp
  · simp

theorem analyzeFunctionNamed_props (nm : String) (a : ComponentAnalysis) :
    (analyzeFunctionNamed nm a).props = a.props := by
  unfold analyzeFunctionNamed
  split <;> rfl

theorem analyzeVariableDeclaration_props (name : Option String)
    (init : Option InitKind) (a : ComponentAnalysis) :
    (analyzeVariableDeclaration name init a).props = a.props := by
  cases name with
  | none => rfl
  | some nm =>
    simp only [analyzeVariableDeclaration]
    split
    · split <;> rfl
    · rfl

theorem analyzeExportAssignment_props (e : Option String) (a : ComponentAnalysis) :
    (analyzeExportAssignment e a).props = a.props := by
  cases e <;> rfl

mutual

theorem visit_props (n : TsNode) (a : ComponentAnalysis) :
    (visit n a).props = a.props ++ propsOfNode n := by
  cases n with
  | importDecl s c children =>
    simp only [visit, propsOfNode]
    rw [visitList_props, analyzeImport_props]
  | interfaceDecl name members children =>
    simp only [visit, propsOfNode]
    rw [visitList_props, analyzeInterface_props, List.append_assoc]
  | typeAliasDecl name tl children =>
    simp only [visit, propsOfNode]
    rw [visitList_props, analyzeTypeAlias_props, List.append_assoc]
  | funcDecl name children =>
    simp only [visit, propsOfNode]
    rw [visitList_props, analyzeFunctionNamed_props]
  | varDecl name init children =>
    cases init with
    | none =>
      simp only [visit, propsOfNode, List.nil_append]
      rw [visitList_props, analyzeVariableDeclaration_props]
    | some k =>
      cases k with
      | arrowFunction =>
        simp only [visit, propsOfNode, List.nil_append]
        rw [visitList_props, analyzeFunctionNamed_props, analyzeVariableDeclaration_props]
      | functionExpression =>
        simp only [visit, propsOfNode, List.nil_append]
        rw [visitList_props, analyzeFunctionNamed_props, analyzeVariableDeclaration_props]
      | otherInit =>
        simp only [visit, propsOfNode, List.nil_append]
        rw [visitList_props, analyzeVariableDeclaration_props]
  | exportAssign e children =>
    simp only [visit, propsOfNode]
    rw [visitList_props, analyzeExportAssignment_props]
  | other children =>
    simp only [visit, propsOfNode]
    rw [visitList_props]

theorem visitList_props (l : List TsNode) (a : ComponentAnalysis) :
    (visitList l a).props = a.props ++ propsOfList l := by
  cases l with
  | nil => simp only [visitList, propsOfList, List.append_nil]
  | cons n rest =>
    simp only [visitList, propsOfList]
    rw [visitList_props, visit_props, List.append_assoc]

end

end ComponentAnalyzer

namespace TestGenerator

theorem strAppend_assoc (a b c : String) : (a ++ b) ++ c = a ++ (b ++ c) :=
  congrArg String.mk (List.append_assoc a.data b.data c.data)

theorem buildTestFile_eq (n ip : String) (cases : List TestCase)
    (an : ComponentAnalysis) :
    buildTestFile n ip cases an =
      generateImports ip n ++ "\n\n/**\n * Test suite for the " ++ n ++
        " component.\n */\ndescribe(\"" ++ n ++ " Component\", () => \x7b" ++
        joinSep "\n" (cases.map (fun test => test.code)) ++ "\n\x7d);\n" := rfl

theorem generate_eq (a : ComponentAnalysis) (fp : String) :
    generate a fp =
      buildTestFile a.componentName (getImportPath fp) (generateTestCases a) a := rfl

theorem generate_includes_code {a : ComponentAnalysis} {fp : String} {tc : TestCase}
    (h : tc ∈ generateTestCases a) : jsIncludes (generate a fp) tc.code = true := by
  rw [generate_eq, buildTestFile_eq]
  apply jsIncludes_append_left
  apply jsIncludes_append_right
  exact joinSep_mem_includes _ _ _ (List.mem_map_of_mem _ h)

theorem generate_startsWith_imports (a : ComponentAnalysis) (fp : String) :
    jsStartsWith (generate a fp)
      (generateImports (getImportPath fp) a.componentName) = true := by
  rw [generate_eq, buildTestFile_eq]
  simp only [strAppend_assoc]
  exact jsStartsWith_append_self _ _

theorem createBasicRenderTest_mem (a : ComponentAnalysis) :
    createBasicRenderTest a ∈ generateTestCases a := by
  simp [generateTestCases]

theorem keyboardAccessTest_mem (a : ComponentAnalysis) :
    keyboardAccessTest a ∈ generateTestCases a := by
  simp [generateTestCases, createAccessibilityTests]

end TestGenerator

open TestGenerator

/-- Scenario A's component model: `Button` with required string `label`,
required zero-arg callback `onClick`, optional boolean `disabled`. -/
def scenarioAModel : ComponentAnalysis :=
  { componentName := "Button", componentType := "functional"
    props :=
      [{ name := "label", type := "string", optional := false
         defaultValue := none, description := none },
       { name := "onClick", type := "() => void", optional := false
         defaultValue := none, description := none },
       { name := "disabled", type := "boolean", optional := true
         defaultValue := none, description := none }]
    exports := ["Button"], imports := [], hasDefaultExport := true
    filePath := "src/components/Button.tsx" }

/-- The `onClick` prop of Scenario A's model. -/
def onClickProp : PropDefinition :=
  { name := "onClick", type := "() => void", optional := false
    defaultValue := none, description := none }

/-- Scenario B's prop: `size: 'small' | 'medium' | 'large'`, optional. -/
def sizeProp : PropDefinition :=
  { name := "size", type := "\x27small\x27 | \x27medium\x27 | \x27large\x27"
    optional := true, defaultValue := none, description := none }

/-- Scenario B's component model: `Select` with the optional union prop. -/
def selectModel : ComponentAnalysis :=
  { componentName := "Select", componentType := "functional"
    props := [sizeProp]
    exports := ["Select"], imports := [], hasDefaultExport := true
    filePath := "src/components/Select.tsx" }

/-- A required zero-arg callback prop named `onChange`: it matches the event
filter (`name.startsWith('on') || type.includes('() => void')`) but is not
named `onClick`. -/
def onChangeProp : PropDefinition :=
  { name := "onChange", type := "() => void", optional := false
    defaultValue := none, description := none }

/-- A component model whose only prop is `onChange`. -/
def changeModel : ComponentAnalysis :=
  { componentName := "Input", componentType := "functional"
    props := [onChangeProp]
    exports := ["Input"], imports := [], hasDefaultExport := true
    filePath := "src/components/Input.tsx" }

/-- C1: the test synthesizer is a pure function of the component model and
file path — in this embedding `generate` is a total function, so two calls
at the same arguments are byte-identical by reflexivity; the source method
reads no mutable state, performs no I/O, and uses no randomness. -/
theorem spec_c1_generate_deterministic :
    ∀ (m : ComponentAnalysis) (filePath : String),
      generate m filePath = generate m filePath :=
  fun _ _ => rfl

/-- C10: for every component model (the empty-name, no-props model included)
`generate` produces a test source that starts with the fixed four-line
header of imports (with a named import of the component), contains the
basic-render case, and contains the keyboard-focusability accessibility
case — all independently of the model's props. -/
theorem spec_c10_fixed_parts :
    ∀ (a : ComponentAnalysis) (fp : String),
      jsStartsWith (generate a fp)
        (generateImports (getImportPath fp) a.componentName) = true ∧
      jsIncludes (generate a fp) (createBasicRenderTest a).code = true ∧
      jsIncludes (generate a fp) (keyboardAccessTest a).code = true :=
  fun a fp =>
    ⟨generate_startsWith_imports a fp,
     generate_includes_code (createBasicRenderTest_mem a),
     generate_includes_code (keyboardAccessTest_mem a)⟩

/-- C3: a union-typed prop (type text containing `|`) yields exactly one
per-literal test case per `|`-split alternative; and on Scenario B's
`Select` model the inferred role is `combobox` and exactly 3 literal-value
cases are generated. -/
theorem spec_c3_union_cases :
    (∀ (prop : PropDefinition) (analysis : ComponentAnalysis),
        jsIncludes prop.type "|" = true →
        createPropTests prop analysis =
          ((jsSplitChar prop.type '|').map (fun v => stripQuoteChars (jsTrim v))).map
            (unionPropTest prop analysis) ∧
        (createPropTests prop analysis).length = (jsSplitChar prop.type '|').length) ∧
    getExpectedRole selectModel = "combobox" ∧
    ((generateTestCases selectModel).filter
        (fun tc => jsStartsWith tc.name "should handle size as ")).length = 3 := by
  refine ⟨?_, by decide, ?_⟩
  · intro prop analysis h
    have hb : (prop.type == "boolean") = false := by
      cases hEq : prop.type == "boolean"
      · rfl
      · exfalso
        rw [eq_of_beq hEq] at h
        exact absurd h (by decide)
    have hs : (prop.type == "string") = false := by
      cases hEq : prop.type == "string"
      · rfl
      · exfalso
        rw [eq_of_beq hEq] at h
        exact absurd h (by decide)
    have he : createPropTests prop analysis =
        ((jsSplitChar prop.type '|').map (fun v => stripQuoteChars (jsTrim v))).map
          (unionPropTest prop analysis) := by
      simp [createPropTests, hb, hs, h]
    exact ⟨he, by rw [he]; simp⟩
  · decide

/-- Witness for C3's universally quantified part at Scenario B's prop: the
`'small' | 'medium' | 'large'` union yields exactly 3 cases. -/
theorem spec_c3_union_cases_witness :
    (createPropTests sizeProp selectModel).length = 3 :=
  ((spec_c3_union_cases.1 sizeProp selectModel (by decide)).2).trans (by decide)

/-- C4 counterexample: the required zero-arg callback prop `onChange` both
starts with `on` and has a `() => void` type, yet the generator emits no
event-handler case for it at all — in particular no mock-invocation case
asserting a single call — because `createEventTests` only handles the prop
named exactly `onClick`. -/
theorem spec_c4_counterexample :
    (jsStartsWith onChangeProp.name "on" = true ∧
      jsIncludes onChangeProp.type "() => void" = true) ∧
    changeModel.props = [onChangeProp] ∧
    createEventTests onChangeProp changeModel = [] ∧
    ((generateTestCases changeModel).filter
        (fun tc => jsIncludes tc.code "toHaveBeenCalledTimes(1)")).length = 0 :=
  ⟨⟨by decide, by decide⟩, rfl, rfl, by decide⟩

/-- C4 amended: props matching the event filter are selected, but an
invocation case (mock handler installed with `jest.fn()`, a click fired,
and an assertion that the handler was called exactly once) is generated
only for the prop named exactly `onClick`; every other prop yields no
event cases. -/
theorem spec_c4_eventTests_only_onClick :
    ∀ (prop : PropDefinition) (analysis : ComponentAnalysis),
      (prop.name ≠ "onClick" → createEventTests prop analysis = []) ∧
      (prop.name = "onClick" →
        ∃ tc ∈ createEventTests prop analysis,
          jsIncludes tc.code "const handleClick = jest.fn();" = true ∧
          jsIncludes tc.code "fireEvent.click(element);" = true ∧
          jsIncludes tc.code "expect(handleClick).toHaveBeenCalledTimes(1);" = true) := by
  intro prop analysis
  constructor
  · intro hne
    have hb : (prop.name == "onClick") = false := beq_eq_false_iff_ne.mpr hne
    simp [createEventTests, hb]
  · intro heq
    have hb : (prop.name == "onClick") = true := by rw [heq]; rfl
    simp only [createEventTests, hb, if_true]
    refine ⟨_, List.mem_cons_self _ _, ?_, ?_, ?_⟩
    · exact jsIncludes_append_left _ (jsIncludes_append_left _ (jsIncludes_append_left _
        (jsIncludes_append_left _ (jsIncludes_append_left _ (jsIncludes_append_left _
          (by decide))))))
    · exact jsIncludes_append_right _ (by decide)
    · exact jsIncludes_append_right _ (by decide)

/-- Witness for C4's amended claim: `onChange` yields no event cases, while
Scenario A's `onClick` yields a case asserting the handler is called once. -/
theorem spec_c4_eventTests_witness :
    createEventTests onChangeProp changeModel = [] ∧
    ∃ tc ∈ createEventTests onClickProp scenarioAModel,
      jsIncludes tc.code "expect(handleClick).toHaveBeenCalledTimes(1);" = true :=
  ⟨(spec_c4_eventTests_only_onClick onChangeProp changeModel).1 (by decide),
   match (spec_c4_eventTests_only_onClick onClickProp scenarioAModel).2 rfl with
   | ⟨tc, hm, _, _, h3⟩ => ⟨tc, hm, h3⟩⟩

/-- C2: on Scenario A's model (`label` required string, `onClick` required
zero-arg callback, `disabled` optional boolean) the generated test source
contains the basic-render case binding both required props, the disabled
boolean toggle/class-assertion case, the onClick-invoked case asserting the
mock handler is called exactly once, the onClick-not-called-while-disabled
case, and the aria-disabled accessibility case. -/
theorem spec_c2_scenarioA :
    jsIncludes (generate scenarioAModel "src/components/Button.tsx")
      "render(<Button label=\"Test Label\" onClick=\x7b() => \x7b\x7d\x7d />);" = true ∧
    (jsIncludes (generate scenarioAModel "src/components/Button.tsx")
        "it(\"should handle disabled prop\"" = true ∧
      jsIncludes (generate scenarioAModel "src/components/Button.tsx")
        "expect(element).toHaveClass(\"disabled\");" = true) ∧
    (jsIncludes (generate scenarioAModel "src/components/Button.tsx")
        "it(\"should call onClick handler when clicked\"" = true ∧
      jsIncludes (generate scenarioAModel "src/components/Button.tsx")
        "expect(handleClick).toHaveBeenCalledTimes(1);" = true) ∧
    (jsIncludes (generate scenarioAModel "src/components/Button.tsx")
        "it(\"should not call onClick when disabled\"" = true ∧
      jsIncludes (generate scenarioAModel "src/components/Button.tsx")
        "expect(handleClick).not.toHaveBeenCalled();" = true) ∧
    jsIncludes (generate scenarioAModel "src/components/Button.tsx")
      "it(\"should have correct aria-disabled when disabled\"" = true := by
  refine ⟨by decide, ⟨by decide, by decide⟩, ⟨by decide, by decide⟩,
    ⟨by decide, by decide⟩, by decide⟩

/-- C8: over any traversed top-level node list, the analyzer's component
name is the last qualifying (uppercase-first function-like) name in
pre-order — earlier matches are overwritten — and every qualifying name is
in the exports list. -/
theorem spec_c8_last_component_wins :
    ∀ (nodes : List ComponentAnalyzer.TsNode) (fp : String),
      (ComponentAnalyzer.analyze nodes fp).componentName =
        (ComponentAnalyzer.componentNamesList nodes).getLastD "" ∧
      ∀ x ∈ ComponentAnalyzer.componentNamesList nodes,
        x ∈ (ComponentAnalyzer.analyze nodes fp).exports := by
  intro nodes fp
  constructor
  · exact ComponentAnalyzer.visitList_componentName nodes _
  · intro x hx
    exact ComponentAnalyzer.visitList_exports_names nodes _ x hx

/-- A file with two qualifying component declarations: a function
declaration `Button` followed by `const Card = () => …`. -/
def c8Nodes : List ComponentAnalyzer.TsNode :=
  [.funcDecl (some "Button") [], .varDecl (some "Card") (some .arrowFunction) []]

/-- Witness for C8 at a two-component file: the later `Card` wins the
component name and the earlier `Button` is still exported. -/
theorem spec_c8_witness :
    (ComponentAnalyzer.analyze c8Nodes "src/Two.tsx").componentName = "Card" ∧
    "Button" ∈ (ComponentAnalyzer.analyze c8Nodes "src/Two.tsx").exports :=
  ⟨((spec_c8_last_component_wins c8Nodes "src/Two.tsx").1).trans (by decide),
   (spec_c8_last_component_wins c8Nodes "src/Two.tsx").2 "Button" (by decide)⟩

/-- C9: the analyzer's prop list is exactly the pre-order concatenation of
the per-declaration contributions (no de-duplication), and every
`Props`-suffixed interface or type-literal alias contributes one
`PropDefinition` per property-signature member. -/
theorem spec_c9_props_append :
    ∀ (nodes : List ComponentAnalyzer.TsNode) (fp : String),
      (ComponentAnalyzer.analyze nodes fp).props = ComponentAnalyzer.propsOfList nodes ∧
      (∀ (name : String) (members : List ComponentAnalyzer.MemberSig)
          (children : List ComponentAnalyzer.TsNode),
        jsEndsWith name "Props" = true →
        ComponentAnalyzer.propsOfNode (.interfaceDecl name members children) =
          members.map ComponentAnalyzer.propOfMember ++
            ComponentAnalyzer.propsOfList children ∧
        ComponentAnalyzer.propsOfNode (.typeAliasDecl name (some members) children) =
          members.map ComponentAnalyzer.propOfMember ++
            ComponentAnalyzer.propsOfList children) := by
  intro nodes fp
  constructor
  · have h := ComponentAnalyzer.visitList_props nodes
      { componentName := "", componentType := "functional", props := []
        exports := [], imports := [], hasDefaultExport := false, filePath := fp }
    simpa using h
  · intro name members children h
    constructor
    · simp [ComponentAnalyzer.propsOfNode, h]
    · simp [ComponentAnalyzer.propsOfNode, h]

/-- A property-signature member `label: string`. -/
def c9Member : ComponentAnalyzer.MemberSig :=
  { name := "label", typeText := some "string", optional := false, jsDoc := none }

/-- A file with two identical `CardProps` interface declarations. -/
def c9Nodes : List ComponentAnalyzer.TsNode :=
  [.interfaceDecl "CardProps" [c9Member] [], .interfaceDecl "CardProps" [c9Member] []]

/-- Witness for C9: two identical `CardProps` declarations append their
member twice (no de-duplication), and a suffixed interface contributes one
prop per member. -/
theorem spec_c9_witness :
    (ComponentAnalyzer.analyze c9Nodes "src/Card.tsx").props =
      [ComponentAnalyzer.propOfMember c9Member, ComponentAnalyzer.propOfMember c9Member] ∧
    ComponentAnalyzer.propsOfNode (.interfaceDecl "CardProps" [c9Member] []) =
      [c9Member].map ComponentAnalyzer.propOfMember ++ ComponentAnalyzer.propsOfList [] :=
  ⟨((spec_c9_props_append c9Nodes "src/Card.tsx").1).trans (by decide),
   ((spec_c9_props_append c9Nodes "src/Card.tsx").2 "CardProps" [c9Member] [] (by decide)).1⟩


namespace TestGeneratorServer

theorem generateTestsLoop_bounds (verify : Nat → String → RunResult)
    (fix : String → String → String) :
    ∀ (fuel it : Nat) (code : String) (ws : List String),
      maxIterations + 1 - it ≤ fuel →
      ws.length ≤ (generateTestsLoop verify fix it code ws).writes.length ∧
      (generateTestsLoop verify fix it code ws).writes.length ≤
        ws.length + (maxIterations + 1 - it) ∧
      (generateTestsLoop verify fix it code ws).iteration ≤ max it (maxIterations + 1) ∧
      (it ≤ maxIterations →
        ws.length + 1 ≤ (generateTestsLoop verify fix it code ws).writes.length) := by
  intro fuel
  induction fuel with
  | zero =>
    intro it code ws hf
    have hit : ¬ it ≤ maxIterations := by
      simp only [maxIterations] at hf ⊢
      omega
    rw [generateTestsLoop, dif_neg hit]
    refine ⟨by simp, by simp, by simp, fun h => absurd h hit⟩
  | succ m ih =>
    intro it code ws hf
    by_cases hit : it ≤ maxIterations
    · rw [generateTestsLoop, dif_pos hit]
      by_cases hs : (verify it code).success = true
      · simp only [hs, if_true]
        refine ⟨by simp, ?_, by simp, fun _ => by simp⟩
        simp only [maxIterations] at hit ⊢
        simp
        omega
      · simp only [hs, Bool.false_eq_true, if_false]
        by_cases hfx : fix code (verify it code).errors = code
        · simp only [hfx, if_true]
          refine ⟨by simp, ?_, by simp, fun _ => by simp⟩
          simp only [maxIterations] at hit ⊢
          simp
          omega
        · simp only [hfx, if_false]
          have hrec := ih (it + 1) (fix code (verify it code).errors) (ws ++ [code])
            (by simp only [maxIterations] at hf ⊢; omega)
          have hlen : (ws ++ [code]).length = ws.length + 1 := by simp
          rw [hlen] at hrec
          have h1 := hrec.1
          have h2 := hrec.2.1
          have h3 := hrec.2.2.1
          simp only [maxIterations] at h2 h3 hit ⊢
          refine ⟨by omega, by omega, by omega, fun _ => by omega⟩
    · rw [generateTestsLoop, dif_neg hit]
      refine ⟨by simp, by simp, by simp, fun h => absurd h hit⟩

/-- An outcome the runner loop skips past: the candidate failed to start,
or it closed with nonzero status and an output reporting that the command
itself was unavailable. -/
def skipsCandidate : CandidateOutcome → Prop
  | .errorEvent => True
  | .close code stdout stderr =>
    code ≠ 0 ∧ (jsIncludes (stdout ++ stderr) "command not found" = true ∨
      jsIncludes (stdout ++ stderr) "is not recognized" = true)

theorem tryNextCommand_errorEvent (path : String) (outcome : Nat → CandidateOutcome)
    (k : Nat) (hk : ¬ k ≥ (testCommands path).length)
    (ho : outcome k = .errorEvent) :
    tryNextCommand path outcome k = tryNextCommand path outcome (k + 1) := by
  rw [tryNextCommand, dif_neg hk, ho]

theorem tryNextCommand_close (path : String) (outcome : Nat → CandidateOutcome)
    (k : Nat) (hk : ¬ k ≥ (testCommands path).length) (c : Int) (sout serr : String)
    (ho : outcome k = .close c sout serr) :
    tryNextCommand path outcome k =
      (if c = 0 then { success := true, errors := "", output := sout ++ serr }
       else if jsIncludes (sout ++ serr) "command not found" ||
           jsIncludes (sout ++ serr) "is not recognized" then
         tryNextCommand path outcome (k + 1)
       else { success := false, errors := sout ++ serr, output := sout ++ serr }) := by
  rw [tryNextCommand, dif_neg hk, ho]

end TestGeneratorServer

namespace TestGeneratorServer

theorem tryNextCommand_success_iff (path : String) (outcome : Nat → CandidateOutcome) :
    ∀ (fuel k : Nat), (testCommands path).length - k ≤ fuel →
      ((tryNextCommand path outcome k).success = true ↔
        ∃ j, k ≤ j ∧ j < (testCommands path).length ∧
          (∀ i, k ≤ i → i < j → skipsCandidate (outcome i)) ∧
          ∃ sout serr, outcome j = .close 0 sout serr) := by
  intro fuel
  induction fuel with
  | zero =>
    intro k hf
    have hk : k ≥ (testCommands path).length := by omega
    rw [tryNextCommand, dif_pos hk]
    constructor
    · intro h
      exact absurd h (by simp)
    · rintro ⟨j, hj1, hj2, -, -⟩
      exfalso
      omega
  | succ m ih =>
    intro k hf
    by_cases hk : k ≥ (testCommands path).length
    · rw [tryNextCommand, dif_pos hk]
      constructor
      · intro h
        exact absurd h (by simp)
      · rintro ⟨j, hj1, hj2, -, -⟩
        exfalso
        omega
    · cases ho : outcome k with
      | errorEvent =>
        rw [tryNextCommand_errorEvent path outcome k hk ho, ih (k + 1) (by omega)]
        constructor
        · rintro ⟨j, hj1, hj2, hskip, hcl⟩
          refine ⟨j, by omega, hj2, ?_, hcl⟩
          intro i hki hij
          by_cases hik : i = k
          · subst hik
            rw [ho]
            trivial
          · exact hskip i (by omega) hij
        · rintro ⟨j, hj1, hj2, hskip, sout, serr, hcl⟩
          have hjk : j ≠ k := by
            intro h
            subst h
            rw [ho] at hcl
            cases hcl
          exact ⟨j, by omega, hj2, fun i h1 h2 => hskip i (by omega) h2, sout, serr, hcl⟩
      | close c sout serr =>
        rw [tryNextCommand_close path outcome k hk c sout serr ho]
        by_cases hc : c = 0
        · rw [if_pos hc]
          subst hc
          constructor
          · intro _
            exact ⟨k, le_refl k, by omega, fun i h1 h2 => absurd h2 (by omega),
              sout, serr, ho⟩
          · intro _
            rfl
        · rw [if_neg hc]
          by_cases hp : (jsIncludes (sout ++ serr) "command not found" ||
              jsIncludes (sout ++ serr) "is not recognized") = true
          · rw [if_pos hp, ih (k + 1) (by omega)]
            constructor
            · rintro ⟨j, hj1, hj2, hskip, hcl⟩
              refine ⟨j, by omega, hj2, ?_, hcl⟩
              intro i hki hij
              by_cases hik : i = k
              · subst hik
                rw [ho]
                exact ⟨hc, by simpa using hp⟩
              · exact hskip i (by omega) hij
            · rintro ⟨j, hj1, hj2, hskip, sout', serr', hcl⟩
              have hjk : j ≠ k := by
                intro h
                subst h
                rw [ho] at hcl
                injection hcl with h1 h2 h3
                exact hc h1
              exact ⟨j, by omega, hj2, fun i h1 h2 => hskip i (by omega) h2,
                sout', serr', hcl⟩
          · rw [if_neg hp]
            constructor
            · intro h
              exact absurd h (by simp)
            · rintro ⟨j, hj1, hj2, hskip, sout', serr', hcl⟩
              exfalso
              by_cases hjk : j = k
              · subst hjk
                rw [ho] at hcl
                injection hcl with h1 h2 h3
                exact hc h1
              · have hsk := hskip k (le_refl k) (by omega)
                rw [ho] at hsk
                rcases hsk.2 with h | h
                · simp [h] at hp
                · simp [h] at hp

theorem tryNextCommand_all_error (path : String) (outcome : Nat → CandidateOutcome) :
    ∀ (fuel k : Nat), (testCommands path).length - k ≤ fuel →
      (∀ i, i < (testCommands path).length → outcome i = .errorEvent) →
      tryNextCommand path outcome k =
        { success := false, errors := noRunnerMsg, output := "" } := by
  intro fuel
  induction fuel with
  | zero =>
    intro k hf hall
    rw [tryNextCommand, dif_pos (by omega)]
  | succ m ih =>
    intro k hf hall
    by_cases hk : k ≥ (testCommands path).length
    · rw [tryNextCommand, dif_pos hk]
    · rw [tryNextCommand_errorEvent path outcome k hk (hall k (by omega))]
      exact ih (k + 1) (by omega) hall

end TestGeneratorServer

open TestGeneratorServer

/-- C5: for every verification oracle and repair function, the orchestrator
loop (counter starting at 1, bounded by the fixed maximum 5) executes its
body — and thus persists the test source — between 1 and 5 times, ends in
one of the terminal states `PASSED`/`STALLED`/`EXHAUSTED` with the counter
at most 6, and the final test source standing at loop exit is persisted
once more regardless of terminal state. -/
theorem spec_c5_loop_bounded :
    ∀ (verify : Nat → String → RunResult) (fix : String → String → String)
      (initialCode : String),
      ((generateTests verify fix initialCode).1.terminal = Terminal.PASSED ∨
        (generateTests verify fix initialCode).1.terminal = Terminal.STALLED ∨
        (generateTests verify fix initialCode).1.terminal = Terminal.EXHAUSTED) ∧
      1 ≤ (generateTests verify fix initialCode).1.writes.length ∧
      (generateTests verify fix initialCode).1.writes.length ≤ maxIterations ∧
      (generateTests verify fix initialCode).1.iteration ≤ maxIterations + 1 ∧
      (generateTests verify fix initialCode).2 =
        (generateTests verify fix initialCode).1.writes ++
          [(generateTests verify fix initialCode).1.testCode] := by
  intro verify fix code
  have h := generateTestsLoop_bounds verify fix (maxIterations + 1) 1 code []
    (by simp [maxIterations])
  simp only [generateTests]
  refine ⟨?_, ?_, ?_, ?_, by trivial⟩
  · cases hterm : (generateTestsLoop verify fix 1 code []).terminal <;> simp [hterm]
  · have := h.2.2.2 (by simp [maxIterations])
    simpa using this
  · have := h.2.1
    simp only [maxIterations, List.length_nil] at this ⊢
    omega
  · have := h.2.2.1
    simp only [maxIterations] at this ⊢
    omega

/-- C6: the verifier result's `success` is true exactly when some candidate
— with every earlier candidate skipped for failing to start or for a
command-unavailable output — closes with exit status zero; and when every
candidate fails to start, the result is the normal (non-thrown) failure
carrying the fixed no-suitable-runner diagnostic. -/
theorem spec_c6_verifier :
    ∀ (testFilePath : String) (outcome : Nat → CandidateOutcome),
      ((runTests testFilePath outcome).success = true ↔
        ∃ j, j < (testCommands testFilePath).length ∧
          (∀ i, i < j → skipsCandidate (outcome i)) ∧
          ∃ sout serr, outcome j = CandidateOutcome.close 0 sout serr) ∧
      ((∀ i, i < (testCommands testFilePath).length →
          outcome i = CandidateOutcome.errorEvent) →
        runTests testFilePath outcome =
          { success := false, errors := noRunnerMsg, output := "" }) := by
  intro path outcome
  constructor
  · have h := tryNextCommand_success_iff path outcome (testCommands path).length 0
      (by omega)
    rw [runTests, h]
    constructor
    · rintro ⟨j, -, hj2, hskip, hcl⟩
      exact ⟨j, hj2, fun i hij => hskip i (by omega) hij, hcl⟩
    · rintro ⟨j, hj2, hskip, hcl⟩
      exact ⟨j, by omega, hj2, fun i _ hij => hskip i hij, hcl⟩
  · intro hall
    rw [runTests]
    exact tryNextCommand_all_error path outcome (testCommands path).length 0
      (by omega) hall

/-- A runner environment where the first candidate fails to start and every
later candidate runs and exits cleanly. -/
def passOutcome : Nat → TestGeneratorServer.CandidateOutcome := fun i =>
  if i = 0 then .errorEvent else .close 0 "ok" ""

/-- Witness for C6: with every candidate failing to start, the fixed
no-runner failure is returned; with one skipped candidate followed by a
clean exit, the result is success. -/
theorem spec_c6_verifier_witness :
    runTests "t.test.tsx" (fun _ => CandidateOutcome.errorEvent) =
      { success := false, errors := noRunnerMsg, output := "" } ∧
    (runTests "t.test.tsx" passOutcome).success = true :=
  ⟨(spec_c6_verifier "t.test.tsx" (fun _ => CandidateOutcome.errorEvent)).2
      (fun _ _ => rfl),
   (spec_c6_verifier "t.test.tsx" passOutcome).1.mpr
     ⟨1, by decide, fun i hi => by
        have h0 : i = 0 := by omega
        subst h0
        exact trivial,
      "ok", "", rfl⟩⟩

/-- A diagnostic text triggering only the quoted-literal strip rule
(`is not assignable to type` together with `Did you mean`). -/
def quoteFixDiag : String := "is not assignable to type. Did you mean"

/-- A test source with nested quoting: `="'="'a'"'"`.  One application of
the quoted-literal strip rule rewrites its inner occurrence and thereby
creates a fresh occurrence of the `="'…'"` pattern. -/
def quoteFixSource : String := "=\"\x27=\"\x27a\x27\"\x27\""

/-- C7 counterexample: repair is not idempotent for a fixed diagnostic.
With a diagnostic firing only the quoted-literal strip rule, the first
application maps `="'="'a'"'"` to `="'="a"'"`, and a second application
with the same diagnostic maps that to `="="a""` — a different text. -/
theorem spec_c7_counterexample :
    fixTestErrors quoteFixSource quoteFixDiag scenarioAModel
        "src/components/Button.tsx" = "=\"\x27=\"a\"\x27\"" ∧
    fixTestErrors "=\"\x27=\"a\"\x27\"" quoteFixDiag scenarioAModel
        "src/components/Button.tsx" = "=\"=\"a\"\"" ∧
    fixTestErrors (fixTestErrors quoteFixSource quoteFixDiag scenarioAModel
          "src/components/Button.tsx") quoteFixDiag scenarioAModel
        "src/components/Button.tsx" ≠
      fixTestErrors quoteFixSource quoteFixDiag scenarioAModel
        "src/components/Button.tsx" :=
  ⟨by decide, by decide, by decide⟩

/-- C7 amended: repair is the identity — hence idempotent — whenever the
diagnostic matches one of the early-return configuration triggers or none
of the rewrite-rule triggers; when a rewrite rule fires, a second
application can differ (see the counterexample). -/
theorem spec_c7_repair_idempotent_when_no_rule_fires :
    ∀ (testCode errors : String) (analysis : ComponentAnalysis) (filePath : String),
      (gateJestConfig errors = true ∨ gateJsxConfig errors = true ∨
        (gateQuotedValue errors = false ∧ gateArrowSyntax errors = false ∧
         gateCannotFindModule errors = false ∧ gateExportNotFound errors = false ∧
         gateRoleNotFound errors = false ∧ gateMissingProp errors = false ∧
         gateHaveClass errors = false ∧ gateTextNotFound errors = false ∧
         gateStatusNotFound errors = false ∧ gateImgNotFound errors = false)) →
      fixTestErrors testCode errors analysis filePath = testCode ∧
      fixTestErrors (fixTestErrors testCode errors analysis filePath) errors analysis
          filePath = fixTestErrors testCode errors analysis filePath := by
  intro testCode errors analysis filePath hyp
  have key : ∀ code, fixTestErrors code errors analysis filePath = code := by
    intro code
    rcases hyp with h1 | h2 | hall
    · simp [fixTestErrors, h1]
    · by_cases h1 : gateJestConfig errors = true
      · simp [fixTestErrors, h1]
      · simp only [Bool.not_eq_true] at h1
        simp [fixTestErrors, h1, h2]
    · by_cases h1 : gateJestConfig errors = true
      · simp [fixTestErrors, h1]
      · by_cases h2 : gateJsxConfig errors = true
        · simp only [Bool.not_eq_true] at h1
          simp [fixTestErrors, h1, h2]
        · simp only [Bool.not_eq_true] at h1 h2
          obtain ⟨g3, g4, g5, g6, g7, g8, g9, g10, g11, g12⟩ := hall
          simp [fixTestErrors, h1, h2, g3, g4, g5, g6, g7, g8, g9, g10, g11, g12]
  exact ⟨key testCode, by rw [key testCode, key testCode]⟩

/-- Witness for C7's amended claim: a passing-run diagnostic triggers no
rule and repair returns the test source unchanged. -/
theorem spec_c7_repair_witness :
    fixTestErrors "const x = 1;" "All 5 tests passed" scenarioAModel
      "src/components/Button.tsx" = "const x = 1;" :=
  (spec_c7_repair_idempotent_when_no_rule_fires "const x = 1;" "All 5 tests passed"
    scenarioAModel "src/components/Button.tsx" (Or.inr (Or.inr (by decide)))).1
